import Mathlib

/-!
# easyflock: process-wide flock multiplexing

A shallow embedding of `flock.go`.  The Go heap is an explicit `World`:
`*_Flock` and `*Flock` pointers are indices into two object stores, the global
`_flockCache.cache` map is an association list, and every system call is answered
by a `Kernel` oracle that sees the whole history of earlier calls, so that a
theorem quantified over the oracle holds whatever the operating system answers.
A Go panic is an `Outcome.panicked` result together with the world as the
unwinding left it (deferred mutex unlocks included).
-/

namespace Easyflock

/-! ## Machine integers, pointers, results -/

/-- Errno number of a non-nil Go `error` coming back from a system call. -/
abbrev Errno := Nat

/-- Go `int` on a 64-bit platform: the two's complement wrap of an integer. -/
def wrapInt (x : Int) : Int :=
  (x + 9223372036854775808) % 18446744073709551616 - 9223372036854775808

/-- Go pointer: `none` is `nil`, `some i` is the `i`-th object of its store. -/
abbrev Ptr := Option Nat

/-- Value a Go panic carries. -/
inductive PanicVal where
  | unlockUnlocked
  | err (e : Errno)
  | nilDeref
deriving DecidableEq, Repr

/-- Answer of a system call that yields a value: the value, or the errno. -/
inductive SysRet (α : Type) where
  | ok (a : α)
  | error (e : Errno)
deriving DecidableEq, Repr

/-- Result of running a Go function: a normal return or a panic. -/
inductive Outcome (α : Type) where
  | ret (a : α)
  | panicked (v : PanicVal)
deriving DecidableEq, Repr

/-! ## Data model (`flock.go` lines 16-45, 134-137) -/

structure _FileID where
  Dev : Nat
  Ino : Nat
deriving DecidableEq, Repr

/-- The two fields of `syscall.Stat_t` the package reads. -/
structure Stat_t where
  Dev : Nat
  Ino : Nat
deriving DecidableEq, Repr

/-- Linux value of `syscall.LOCK_SH`. -/
def LOCK_SH : Nat := 1
/-- Linux value of `syscall.LOCK_EX`. -/
def LOCK_EX : Nat := 2
/-- Linux value of `syscall.LOCK_NB`. -/
def LOCK_NB : Nat := 4
/-- Linux value of `syscall.LOCK_UN`. -/
def LOCK_UN : Nat := 8

abbrev _LockState := Int

def _LS_SHARED : _LockState := Int.ofNat LOCK_SH
def _LS_EXCLUSIVE : _LockState := Int.ofNat LOCK_EX
def _LS_UNLOCKED : _LockState := Int.ofNat LOCK_UN

/-- The struct `_Flock` without its mutex, which is recorded in `World.mtxlog`. -/
structure _Flock where
  fd : Int
  state : _LockState
  refcount : Int
  users : Int
  fid : _FileID
deriving DecidableEq, Repr

/-- The struct `Flock`: the embedded `*_Flock` and the `closed` flag. -/
structure Flock where
  _Flock : Ptr
  closed : Int
deriving DecidableEq, Repr

/-! ## Operating system and world -/

/-- One system call with the answer it got. -/
inductive Event where
  | Fstat (fd : Int) (r : SysRet Stat_t)
  | Dup (fd : Int) (r : SysRet Int)
  | Flock (fd : Int) (how : Nat) (err : Option Errno)
  | Close (fd : Int) (err : Option Errno)
deriving DecidableEq, Repr

/-- The operating system: each primitive answers from the history of calls so far. -/
structure Kernel where
  Fstat : List Event → Int → SysRet Stat_t
  Dup : List Event → Int → SysRet Int
  Flock : List Event → Int → Nat → Option Errno
  Close : List Event → Int → Option Errno

/-- A mutex of the package: the one of `_flockCache` or the one of a `_Flock`. -/
inductive Mtx where
  | cache
  | flock (p : Nat)
deriving DecidableEq, Repr

inductive MtxEvent where
  | Lock (m : Mtx)
  | Unlock (m : Mtx)
deriving DecidableEq, Repr

/-- Process state: both object stores, the registry map, and the two logs. -/
structure World where
  flocks : List _Flock
  handles : List Flock
  cache : List (_FileID × Nat)
  trace : List Event
  mtxlog : List MtxEvent
deriving DecidableEq, Repr

/-- State right after `_flockCache = &_FlockCache{cache: make(_FlockMap)}`. -/
def World.empty : World :=
  { flocks := [], handles := [], cache := [], trace := [], mtxlog := [] }

@[simp]
def World.sys (w : World) (e : Event) : World :=
  { w with trace := w.trace ++ [e] }

@[simp]
def World.mtx (w : World) (e : MtxEvent) : World :=
  { w with mtxlog := w.mtxlog ++ [e] }

@[simp]
def World.setFlock (w : World) (i : Nat) (f : _Flock) : World :=
  { w with flocks := w.flocks.set i f }

@[simp]
def World.setHandle (w : World) (h : Nat) (x : Flock) : World :=
  { w with handles := w.handles.set h x }

/-! ## The lock state machine (`flock.go` lines 47-99) -/

def _Flock.TryLock (k : Kernel) (p : Ptr) (w : World) : Outcome Bool × World :=
  match p with
  | none => (.panicked .nilDeref, w)
  | some i =>
    match w.flocks[i]? with
    | none => (.panicked .nilDeref, w)
    | some f =>
      let w := w.mtx (.Lock (.flock i))
      if f.state ≠ _LS_UNLOCKED then
        (.ret false, w.mtx (.Unlock (.flock i)))
      else
        let err := k.Flock w.trace f.fd (LOCK_NB ||| LOCK_EX)
        let w := w.sys (.Flock f.fd (LOCK_NB ||| LOCK_EX) err)
        match err with
        | some _ => (.ret false, w.mtx (.Unlock (.flock i)))
        | none =>
          let w := w.setFlock i { f with state := _LS_EXCLUSIVE }
          (.ret true, w.mtx (.Unlock (.flock i)))

def _Flock.TryRLock (k : Kernel) (p : Ptr) (w : World) : Outcome Bool × World :=
  match p with
  | none => (.panicked .nilDeref, w)
  | some i =>
    match w.flocks[i]? with
    | none => (.panicked .nilDeref, w)
    | some f =>
      let w := w.mtx (.Lock (.flock i))
      if f.state = _LS_EXCLUSIVE then
        (.ret false, w.mtx (.Unlock (.flock i)))
      else if f.state ≠ _LS_SHARED then
        let err := k.Flock w.trace f.fd (LOCK_NB ||| LOCK_SH)
        let w := w.sys (.Flock f.fd (LOCK_NB ||| LOCK_SH) err)
        match err with
        | some _ => (.ret false, w.mtx (.Unlock (.flock i)))
        | none =>
          let w := w.setFlock i { f with users := wrapInt (f.users + 1), state := _LS_SHARED }
          (.ret true, w.mtx (.Unlock (.flock i)))
      else
        let w := w.setFlock i { f with users := wrapInt (f.users + 1), state := _LS_SHARED }
        (.ret true, w.mtx (.Unlock (.flock i)))

/-- Lines 94-98 of `_Flock.Unlock`: the unlock system call after the switch. -/
def unlockSyscall (k : Kernel) (i : Nat) (f : _Flock) (w : World) : Outcome Unit × World :=
  let err := k.Flock w.trace f.fd (LOCK_NB ||| LOCK_UN)
  let w := w.sys (.Flock f.fd (LOCK_NB ||| LOCK_UN) err)
  match err with
  | some e => (.panicked (.err e), w.mtx (.Unlock (.flock i)))
  | none =>
    let w := w.setFlock i { f with state := _LS_UNLOCKED }
    (.ret (), w.mtx (.Unlock (.flock i)))

def _Flock.Unlock (k : Kernel) (p : Ptr) (w : World) : Outcome Unit × World :=
  match p with
  | none => (.panicked .nilDeref, w)
  | some i =>
    match w.flocks[i]? with
    | none => (.panicked .nilDeref, w)
    | some f =>
      let w := w.mtx (.Lock (.flock i))
      if f.state = _LS_UNLOCKED then
        (.panicked .unlockUnlocked, w.mtx (.Unlock (.flock i)))
      else if f.state = _LS_SHARED then
        let f := { f with users := wrapInt (f.users - 1) }
        let w := w.setFlock i f
        if f.users > 0 then
          (.ret (), w.mtx (.Unlock (.flock i)))
        else
          unlockSyscall k i f w
      else
        unlockSyscall k i f w

/-! ## Reference counting and the registry (`flock.go` lines 101-195) -/

def _Flock.incref (p : Ptr) (w : World) : Outcome Unit × World :=
  match p with
  | none => (.panicked .nilDeref, w)
  | some i =>
    match w.flocks[i]? with
    | none => (.panicked .nilDeref, w)
    | some f =>
      let w := w.mtx (.Lock (.flock i))
      let w := w.setFlock i { f with refcount := wrapInt (f.refcount + 1) }
      (.ret (), w.mtx (.Unlock (.flock i)))

/-- The method `(*_Flock).Close`; `runtime.SetFinalizer(f, nil)` has no effect on the state. -/
def _Flock.Close (k : Kernel) (p : Ptr) (w : World) : Outcome Unit × World :=
  match p with
  | none => (.panicked .nilDeref, w)
  | some i =>
    match w.flocks[i]? with
    | none => (.panicked .nilDeref, w)
    | some f =>
      let w := w.mtx (.Lock (.flock i))
      let f := { f with refcount := wrapInt (f.refcount - 1) }
      let w := w.setFlock i f
      let w := w.mtx (.Lock .cache)
      if f.refcount > 0 then
        (.ret (), (w.mtx (.Unlock .cache)).mtx (.Unlock (.flock i)))
      else
        let err := k.Close w.trace f.fd
        let w := w.sys (.Close f.fd err)
        match err with
        | some e => (.panicked (.err e), (w.mtx (.Unlock .cache)).mtx (.Unlock (.flock i)))
        | none =>
          let w := w.setFlock i { f with fd := -1 }
          let w := { w with cache := w.cache.filter (fun kv => decide (kv.1 ≠ f.fid)) }
          (.ret (), (w.mtx (.Unlock .cache)).mtx (.Unlock (.flock i)))

/-- The method `(*Flock).Close`: compare-and-swap on `closed`, then the embedded close. -/
def Flock.Close (k : Kernel) (h : Ptr) (w : World) : Outcome Unit × World :=
  match h with
  | none => (.panicked .nilDeref, w)
  | some j =>
    match w.handles[j]? with
    | none => (.panicked .nilDeref, w)
    | some x =>
      if x.closed = 0 then
        let w := w.setHandle j { x with closed := 1 }
        match _Flock.Close k x._Flock w with
        | (.panicked v, w) => (.panicked v, w)
        | (.ret _, w) => (.ret (), w.setHandle j { _Flock := none, closed := 1 })
      else
        (.ret (), w)

def getFid (k : Kernel) (fd : Int) (w : World) : (_FileID × Option Errno) × World :=
  let r := k.Fstat w.trace fd
  let w := w.sys (.Fstat fd r)
  match r with
  | .error e => ((⟨0, 0⟩, some e), w)
  | .ok stat => ((⟨stat.Dev, stat.Ino⟩, none), w)

/-- The function `wrapFlock`; the finalizer it installs is a later `Flock.Close` call. -/
def wrapFlock (flock : Ptr) (w : World) : Outcome Ptr × World :=
  match _Flock.incref flock w with
  | (.panicked v, w) => (.panicked v, w)
  | (.ret _, w) =>
    (.ret (some w.handles.length),
      { w with handles := w.handles ++ [{ _Flock := flock, closed := 0 }] })

def NewFlock (k : Kernel) (fd : Int) (w : World) : Outcome (Ptr × Option Errno) × World :=
  match getFid k fd w with
  | ((_, some e), w) => (.ret (none, some e), w)
  | ((fid, none), w) =>
    let w := w.mtx (.Lock .cache)
    match w.cache.lookup fid with
    | some i =>
      match wrapFlock (some i) w with
      | (.panicked v, w) => (.panicked v, w.mtx (.Unlock .cache))
      | (.ret res, w) => (.ret (res, none), w.mtx (.Unlock .cache))
    | none =>
      let r := k.Dup w.trace fd
      let w := w.sys (.Dup fd r)
      match r with
      | .error e => (.ret (none, some e), w.mtx (.Unlock .cache))
      | .ok nfd =>
        let flock := w.flocks.length
        let w := { w with flocks := w.flocks ++
          [{ fid := fid, state := _LS_UNLOCKED, fd := nfd, refcount := 0, users := 0 }] }
        match wrapFlock (some flock) w with
        | (.panicked v, w) => (.panicked v, w.mtx (.Unlock .cache))
        | (.ret res, w) => (.ret (res, none), w.mtx (.Unlock .cache))

/-! ## Methods of `_Flock` promoted to `Flock` -/

def Flock.TryLock (k : Kernel) (h : Ptr) (w : World) : Outcome Bool × World :=
  match h with
  | none => (.panicked .nilDeref, w)
  | some j =>
    match w.handles[j]? with
    | none => (.panicked .nilDeref, w)
    | some x => _Flock.TryLock k x._Flock w

def Flock.TryRLock (k : Kernel) (h : Ptr) (w : World) : Outcome Bool × World :=
  match h with
  | none => (.panicked .nilDeref, w)
  | some j =>
    match w.handles[j]? with
    | none => (.panicked .nilDeref, w)
    | some x => _Flock.TryRLock k x._Flock w

def Flock.Unlock (k : Kernel) (h : Ptr) (w : World) : Outcome Unit × World :=
  match h with
  | none => (.panicked .nilDeref, w)
  | some j =>
    match w.handles[j]? with
    | none => (.panicked .nilDeref, w)
    | some x => _Flock.Unlock k x._Flock w

/-! ## Package initialisation (`flock.go` lines 197-203) -/

/-- The function `init`: an empty registry, `NewFlock(2)` with its error dropped,
then `TryLock` on the handle it returned with the result dropped. -/
def init (k : Kernel) : Outcome Unit × World :=
  match NewFlock k 2 World.empty with
  | (.panicked v, w) => (.panicked v, w)
  | (.ret (f, _), w) =>
    match Flock.TryLock k f w with
    | (.panicked v, w) => (.panicked v, w)
    | (.ret _, w) => (.ret (), w)

/-! ## Call sequences -/

/-- One call of the exported interface. -/
inductive Call where
  | NewFlock (fd : Int)
  | TryLock (h : Ptr)
  | TryRLock (h : Ptr)
  | Unlock (h : Ptr)
  | Close (h : Ptr)
deriving DecidableEq, Repr

/-- World a call leaves behind, whether it returned or panicked. -/
def Call.run (k : Kernel) (c : Call) (w : World) : World :=
  match c with
  | .NewFlock fd => (Easyflock.NewFlock k fd w).2
  | .TryLock h => (Flock.TryLock k h w).2
  | .TryRLock h => (Flock.TryRLock k h w).2
  | .Unlock h => (Flock.Unlock k h w).2
  | .Close h => (Flock.Close k h w).2

/-- World after a sequence of calls, run in order. -/
def runCalls (k : Kernel) (cs : List Call) (w : World) : World :=
  cs.foldl (fun w c => c.run k w) w

/-- Number of handles that wrap object `i` and whose `closed` flag is still 0. -/
def liveHandles (w : World) (i : Nat) : Nat :=
  w.handles.countP (fun x => decide (x._Flock = some i ∧ x.closed = 0))

/-- Whether some `close` system call in the trace came back with an error. -/
def closeFailed (tr : List Event) : Bool :=
  tr.any (fun ev => match ev with
    | .Close _ (some _) => true
    | _ => false)

/-- One lock operation on an object. -/
inductive LockOp where
  | TryLock
  | TryRLock
  | Unlock
deriving DecidableEq, Repr

/-- What the callers of one object hold, as told by the results they received:
`excl` after a `TryLock` that returned true, `shared` counting the `TryRLock` calls
that returned true, each undone by an `Unlock` that returned; `failed` once an
`Unlock` made while no exclusive hold was out (so on behalf of a shared holder) has
panicked on a failed system call.  An `Unlock` of the exclusive hold that panics
that way changes nothing: the hold is still out. -/
structure Holds where
  excl : Bool
  shared : Nat
  failed : Bool
deriving DecidableEq, Repr

/-- Run one lock operation on object `p` and update the callers' bookkeeping. -/
def lockStep (k : Kernel) (p : Ptr) (s : World × Holds) (op : LockOp) : World × Holds :=
  match op with
  | .TryLock =>
    match _Flock.TryLock k p s.1 with
    | (.ret true, w) => (w, { s.2 with excl := true })
    | (_, w) => (w, s.2)
  | .TryRLock =>
    match _Flock.TryRLock k p s.1 with
    | (.ret true, w) => (w, { s.2 with shared := s.2.shared + 1 })
    | (_, w) => (w, s.2)
  | .Unlock =>
    match _Flock.Unlock k p s.1 with
    | (.ret _, w) =>
      (w, if s.2.excl then { s.2 with excl := false }
          else { s.2 with shared := s.2.shared - 1 })
    | (.panicked (.err _), w) => (w, if s.2.excl then s.2 else { s.2 with failed := true })
    | (.panicked _, w) => (w, s.2)

/-- Run a sequence of lock operations on object `p`. -/
def lockRun (k : Kernel) (p : Ptr) (ops : List LockOp) (s : World × Holds) : World × Holds :=
  ops.foldl (lockStep k p) s

/-- Run `op` `n` times in a row: the outcomes in call order and the final world. -/
def callN {α : Type} (op : World → Outcome α × World) : Nat → World → List (Outcome α) × World
  | 0, w => ([], w)
  | n + 1, w => ((op w).1 :: (callN op n (op w).2).1, (callN op n (op w).2).2)

/-- Object `i` and the callers' bookkeeping agree: Unlocked with nothing held,
Exclusive with the exclusive hold, or Shared with the count of shared holds. -/
def LockInv (w : World) (i : Nat) (h : Holds) : Prop :=
  ∃ g, w.flocks[i]? = some g ∧
    ((g.state = _LS_UNLOCKED ∧ g.users = 0 ∧ h.excl = false ∧ h.shared = 0) ∨
      (g.state = _LS_EXCLUSIVE ∧ g.users = 0 ∧ h.excl = true ∧ h.shared = 0) ∨
      (g.state = _LS_SHARED ∧ g.users = h.shared ∧ 1 ≤ h.shared ∧ h.excl = false))

/-- What a lock operation may change going from `w` to `r`: the handles and the
registry stay, the trace grows, and every object keeps its refcount and descriptor. -/
def LockFrame (w r : World) : Prop :=
  r.handles = w.handles ∧ r.cache = w.cache ∧ w.trace <+: r.trace ∧
    r.flocks.length = w.flocks.length ∧
    ∀ (n : Nat) (f : _Flock), w.flocks[n]? = some f →
      ∃ g : _Flock, r.flocks[n]? = some g ∧ g.refcount = f.refcount ∧ g.fd = f.fd

/-- Shape of the worlds the package reaches: the registry is empty; handle `j` was
created together with object `j`; an open handle wraps object `j`, whose refcount is
1; a released handle is nil or still wraps object `j`, whose refcount is 0 and whose
descriptor field is -1 unless some `close` call failed. -/
def Paired (w : World) : Prop :=
  w.cache = [] ∧ w.handles.length = w.flocks.length ∧
    ∀ (j : Nat) (x : Flock), w.handles[j]? = some x → ∃ f : _Flock, w.flocks[j]? = some f ∧
      ((x.closed = 0 ∧ x._Flock = some j ∧ f.refcount = 1) ∨
        (x.closed = 1 ∧ (x._Flock = none ∨ x._Flock = some j) ∧ f.refcount = 0 ∧
          (f.fd = -1 ∨ closeFailed w.trace = true)))

/-! ## Concrete kernels and worlds used to exercise the model -/

/-- A kernel that lets every call succeed: every descriptor is the file
(device 1, inode 1), `dup` returns a descriptor numbered after the history. -/
def grantAll : Kernel :=
  { Fstat := fun _ _ => .ok ⟨1, 1⟩
    Dup := fun tr _ => .ok (10 + tr.length)
    Flock := fun _ _ _ => none
    Close := fun _ _ => none }

/-- A kernel like `grantAll` whose `flock` fails with errno 11 on every request. -/
def denyFlock : Kernel :=
  { grantAll with Flock := fun _ _ _ => some 11 }

/-- A kernel like `grantAll` whose `close` fails with errno 5 on every request. -/
def denyClose : Kernel :=
  { grantAll with Close := fun _ _ => some 5 }

/-- A kernel like `grantAll` that refuses every unlock request with errno 5. -/
def denyUnlock : Kernel :=
  { grantAll with Flock := fun _ _ how => if how = LOCK_NB ||| LOCK_UN then some 5 else none }

/-- World after `NewFlock(3)` on the empty world: one object, one handle. -/
def worldNew : World := (NewFlock grantAll 3 World.empty).2

/-- World after `NewFlock(3)` and a granted `TryLock`. -/
def worldExcl : World := (Flock.TryLock grantAll (some 0) worldNew).2

/-- World after `NewFlock(3)` and one granted `TryRLock`. -/
def worldShared1 : World := (Flock.TryRLock grantAll (some 0) worldNew).2

/-- World after `NewFlock(3)` and two `TryRLock` calls. -/
def worldShared2 : World := (Flock.TryRLock grantAll (some 0) worldShared1).2

/-- World after `NewFlock(3)` and then `NewFlock(4)`, both descriptors being the
same file (device 1, inode 1): two handles. -/
def worldTwo : World := (NewFlock grantAll 4 worldNew).2

/-- World after `NewFlock(3)`, a granted `TryRLock`, an `Unlock` whose unlock request
the kernel refuses (it panics) and a second `Unlock` that the kernel grants: the
object is Unlocked with shared-holder count -1. -/
def worldNegCount : World :=
  (_Flock.Unlock grantAll (some 0) (_Flock.Unlock denyUnlock (some 0) worldShared1).2).2

/-- The object of `worldNew` with the given lock state and shared-holder count. -/
def objAt (st : _LockState) (users : Int) : _Flock :=
  { fd := 11, state := st, refcount := 1, users := users, fid := ⟨1, 1⟩ }

/-! ## Basic facts -/

theorem wrapInt_of_range (x : Int) (h1 : -9223372036854775808 ≤ x)
    (h2 : x < 9223372036854775808) : wrapInt x = x := by
  unfold wrapInt
  omega

@[simp]
theorem ls_excl_ne_unlocked : _LS_EXCLUSIVE ≠ _LS_UNLOCKED := by
  decide
@[simp]
theorem ls_shared_ne_unlocked : _LS_SHARED ≠ _LS_UNLOCKED := by
  decide
@[simp]
theorem ls_shared_ne_excl : _LS_SHARED ≠ _LS_EXCLUSIVE := by
  decide
@[simp]
theorem ls_unlocked_ne_excl : _LS_UNLOCKED ≠ _LS_EXCLUSIVE := by
  decide
@[simp]
theorem ls_unlocked_ne_shared : _LS_UNLOCKED ≠ _LS_SHARED := by
  decide
@[simp]
theorem ls_excl_ne_shared : _LS_EXCLUSIVE ≠ _LS_SHARED := by
  decide

/-! ## The state machine, one call at a time -/

/-- C3: on an object in state Exclusive both `TryLock` and `TryRLock` return false,
add nothing to the system call trace and leave every lock object (state, users,
refcount), every handle and the registry as they were; and a `TryLock` that
returned true has left its object in state Exclusive. -/
theorem exclusive_blocks_all (k : Kernel) (w : World) (i : Nat) (f : _Flock)
    (hf : w.flocks[i]? = some f) (hs : f.state = _LS_EXCLUSIVE) :
    ((_Flock.TryLock k (some i) w).1 = .ret false ∧
      (_Flock.TryLock k (some i) w).2.trace = w.trace ∧
      (_Flock.TryLock k (some i) w).2.flocks = w.flocks ∧
      (_Flock.TryLock k (some i) w).2.handles = w.handles ∧
      (_Flock.TryLock k (some i) w).2.cache = w.cache) ∧
    ((_Flock.TryRLock k (some i) w).1 = .ret false ∧
      (_Flock.TryRLock k (some i) w).2.trace = w.trace ∧
      (_Flock.TryRLock k (some i) w).2.flocks = w.flocks ∧
      (_Flock.TryRLock k (some i) w).2.handles = w.handles ∧
      (_Flock.TryRLock k (some i) w).2.cache = w.cache) ∧
    (∀ w0 : World, (_Flock.TryLock k (some i) w0).1 = .ret true →
      ∃ g, (_Flock.TryLock k (some i) w0).2.flocks[i]? = some g ∧
        g.state = _LS_EXCLUSIVE) := by
  refine ⟨?_, ?_, ?_⟩
  · simp [_Flock.TryLock, hf, hs]
  · simp [_Flock.TryRLock, hf, hs]
  · intro w0 h0
    unfold _Flock.TryLock at h0 ⊢
    cases hg : w0.flocks[i]? with
    | none => simp [hg] at h0
    | some g =>
      have hi : i < w0.flocks.length := by
        rcases List.getElem?_eq_some.mp hg with ⟨hlt, _⟩
        exact hlt
      by_cases hst : g.state = _LS_UNLOCKED
      · cases he : k.Flock w0.trace g.fd (LOCK_NB ||| LOCK_EX) with
        | some e => simp [hg, hst, he] at h0
        | none => simp [hg, hst, he, hi]
      · simp [hg, hst] at h0

theorem exclusive_blocks_all_witness :
    worldExcl.flocks[0]? = some (objAt _LS_EXCLUSIVE 0) ∧
      (_Flock.TryLock denyFlock (some 0) worldExcl).1 = .ret false ∧
      (_Flock.TryRLock grantAll (some 0) worldExcl).1 = .ret false ∧
      (_Flock.TryRLock grantAll (some 0) worldExcl).2.flocks = worldExcl.flocks :=
  ⟨by decide,
    (exclusive_blocks_all denyFlock worldExcl 0 (objAt _LS_EXCLUSIVE 0) (by decide) rfl).1.1,
    (exclusive_blocks_all grantAll worldExcl 0 (objAt _LS_EXCLUSIVE 0) (by decide) rfl).2.1.1,
    (exclusive_blocks_all grantAll worldExcl 0 (objAt _LS_EXCLUSIVE 0) (by decide) rfl).2.1.2.2.1⟩

/-- C5: on an object in state Shared with `n >= 1` holders (and `n + 1` a Go int)
`TryRLock` returns true whatever the kernel would answer, adds nothing to the
system call trace and leaves the object Shared with `n + 1` holders; `TryLock`
returns false and changes no object, handle, registry entry or trace. -/
theorem shared_reentry (k : Kernel) (w : World) (i : Nat) (f : _Flock)
    (hf : w.flocks[i]? = some f) (hs : f.state = _LS_SHARED)
    (hn : 1 ≤ f.users) (hmax : f.users < 9223372036854775807) :
    ((_Flock.TryRLock k (some i) w).1 = .ret true ∧
      (_Flock.TryRLock k (some i) w).2.trace = w.trace ∧
      (_Flock.TryRLock k (some i) w).2.flocks =
        w.flocks.set i { f with users := f.users + 1, state := _LS_SHARED } ∧
      (_Flock.TryRLock k (some i) w).2.handles = w.handles ∧
      (_Flock.TryRLock k (some i) w).2.cache = w.cache) ∧
    ((_Flock.TryLock k (some i) w).1 = .ret false ∧
      (_Flock.TryLock k (some i) w).2.trace = w.trace ∧
      (_Flock.TryLock k (some i) w).2.flocks = w.flocks ∧
      (_Flock.TryLock k (some i) w).2.handles = w.handles ∧
      (_Flock.TryLock k (some i) w).2.cache = w.cache) := by
  have hw : wrapInt (f.users + 1) = f.users + 1 :=
    wrapInt_of_range _ (by omega) (by omega)
  refine ⟨?_, ?_⟩
  · simp [_Flock.TryRLock, hf, hs, hw]
  · simp [_Flock.TryLock, hf, hs]

theorem shared_reentry_witness :
    worldShared1.flocks[0]? = some (objAt _LS_SHARED 1) ∧
      (_Flock.TryRLock denyFlock (some 0) worldShared1).1 = .ret true ∧
      (_Flock.TryRLock denyFlock (some 0) worldShared1).2.flocks = [objAt _LS_SHARED 2] ∧
      (_Flock.TryLock grantAll (some 0) worldShared1).1 = .ret false :=
  ⟨by decide,
    (shared_reentry denyFlock worldShared1 0 (objAt _LS_SHARED 1) (by decide) rfl
      (by decide) (by decide)).1.1,
    (shared_reentry denyFlock worldShared1 0 (objAt _LS_SHARED 1) (by decide) rfl
      (by decide) (by decide)).1.2.2.1,
    (shared_reentry grantAll worldShared1 0 (objAt _LS_SHARED 1) (by decide) rfl
      (by decide) (by decide)).2.1⟩

/-- C6 (amended): on an object in state Unlocked `TryLock` (resp. `TryRLock`) issues the
non-blocking exclusive (resp. shared) `flock` call and returns true exactly when the
kernel answers without error; on success the object becomes Exclusive (resp. Shared
with one more holder, hence Shared(1) from count 0); on any errno the result is
false and no object changes. -/
theorem unlocked_try_follows_kernel (k : Kernel) (w : World) (i : Nat) (f : _Flock)
    (hf : w.flocks[i]? = some f) (hs : f.state = _LS_UNLOCKED) :
    (((_Flock.TryLock k (some i) w).1 = .ret true ↔
        k.Flock w.trace f.fd (LOCK_NB ||| LOCK_EX) = none) ∧
      (_Flock.TryLock k (some i) w).2.trace = w.trace ++
        [.Flock f.fd (LOCK_NB ||| LOCK_EX) (k.Flock w.trace f.fd (LOCK_NB ||| LOCK_EX))] ∧
      (k.Flock w.trace f.fd (LOCK_NB ||| LOCK_EX) = none →
        (_Flock.TryLock k (some i) w).2.flocks =
          w.flocks.set i { f with state := _LS_EXCLUSIVE }) ∧
      (∀ e, k.Flock w.trace f.fd (LOCK_NB ||| LOCK_EX) = some e →
        (_Flock.TryLock k (some i) w).1 = .ret false ∧
        (_Flock.TryLock k (some i) w).2.flocks = w.flocks)) ∧
    (((_Flock.TryRLock k (some i) w).1 = .ret true ↔
        k.Flock w.trace f.fd (LOCK_NB ||| LOCK_SH) = none) ∧
      (_Flock.TryRLock k (some i) w).2.trace = w.trace ++
        [.Flock f.fd (LOCK_NB ||| LOCK_SH) (k.Flock w.trace f.fd (LOCK_NB ||| LOCK_SH))] ∧
      (k.Flock w.trace f.fd (LOCK_NB ||| LOCK_SH) = none →
        (_Flock.TryRLock k (some i) w).2.flocks =
          w.flocks.set i { f with users := wrapInt (f.users + 1), state := _LS_SHARED } ∧
        (f.users = 0 → (_Flock.TryRLock k (some i) w).2.flocks =
          w.flocks.set i { f with users := 1, state := _LS_SHARED })) ∧
      (∀ e, k.Flock w.trace f.fd (LOCK_NB ||| LOCK_SH) = some e →
        (_Flock.TryRLock k (some i) w).1 = .ret false ∧
        (_Flock.TryRLock k (some i) w).2.flocks = w.flocks)) := by
  refine ⟨?_, ?_⟩
  · cases he : k.Flock w.trace f.fd (LOCK_NB ||| LOCK_EX) with
    | none => simp [_Flock.TryLock, hf, hs, he]
    | some e => simp [_Flock.TryLock, hf, hs, he]
  · cases he : k.Flock w.trace f.fd (LOCK_NB ||| LOCK_SH) with
    | none =>
      have h1 : wrapInt 1 = 1 := by decide
      simp [_Flock.TryRLock, hf, hs, he]
      intro hu
      simp [hu, h1]
    | some e => simp [_Flock.TryRLock, hf, hs, he]

theorem unlocked_try_follows_kernel_witness :
    worldNew.flocks[0]? = some (objAt _LS_UNLOCKED 0) ∧
      (_Flock.TryLock grantAll (some 0) worldNew).1 = .ret true ∧
      (_Flock.TryRLock grantAll (some 0) worldNew).2.flocks = [objAt _LS_SHARED 1] ∧
      (_Flock.TryRLock denyFlock (some 0) worldNew).1 = .ret false :=
  ⟨by decide,
    (unlocked_try_follows_kernel grantAll worldNew 0 (objAt _LS_UNLOCKED 0)
      (by decide) rfl).1.1.mpr rfl,
    ((unlocked_try_follows_kernel grantAll worldNew 0 (objAt _LS_UNLOCKED 0)
      (by decide) rfl).2.2.2.1 rfl).2 rfl,
    ((unlocked_try_follows_kernel denyFlock worldNew 0 (objAt _LS_UNLOCKED 0)
      (by decide) rfl).2.2.2.2 11 rfl).1⟩

/-- C7: the transitions of `Unlock`.  From Exclusive it issues the non-blocking
unlock call and, when the kernel grants it, ends Unlocked; from Shared with `n > 1`
holders it issues no call and ends Shared with `n - 1`; from Shared with one holder
it issues the unlock call and, when granted, ends Unlocked with count 0; whenever
the issued unlock call fails, `Unlock` panics with that error instead of returning. -/
theorem unlock_transitions (k : Kernel) (w : World) (i : Nat) (f : _Flock)
    (hf : w.flocks[i]? = some f) (hr : f.users < 9223372036854775808) :
    (f.state = _LS_EXCLUSIVE →
      (_Flock.Unlock k (some i) w).2.trace = w.trace ++
        [.Flock f.fd (LOCK_NB ||| LOCK_UN) (k.Flock w.trace f.fd (LOCK_NB ||| LOCK_UN))] ∧
      (k.Flock w.trace f.fd (LOCK_NB ||| LOCK_UN) = none →
        (_Flock.Unlock k (some i) w).1 = .ret () ∧
        (_Flock.Unlock k (some i) w).2.flocks =
          w.flocks.set i { f with state := _LS_UNLOCKED }) ∧
      (∀ e, k.Flock w.trace f.fd (LOCK_NB ||| LOCK_UN) = some e →
        (_Flock.Unlock k (some i) w).1 = .panicked (.err e))) ∧
    (f.state = _LS_SHARED → 1 < f.users →
      (_Flock.Unlock k (some i) w).1 = .ret () ∧
      (_Flock.Unlock k (some i) w).2.trace = w.trace ∧
      (_Flock.Unlock k (some i) w).2.flocks =
        w.flocks.set i { f with users := f.users - 1 }) ∧
    (f.state = _LS_SHARED → f.users = 1 →
      (_Flock.Unlock k (some i) w).2.trace = w.trace ++
        [.Flock f.fd (LOCK_NB ||| LOCK_UN) (k.Flock w.trace f.fd (LOCK_NB ||| LOCK_UN))] ∧
      (k.Flock w.trace f.fd (LOCK_NB ||| LOCK_UN) = none →
        (_Flock.Unlock k (some i) w).1 = .ret () ∧
        (_Flock.Unlock k (some i) w).2.flocks =
          w.flocks.set i { f with users := 0, state := _LS_UNLOCKED }) ∧
      (∀ e, k.Flock w.trace f.fd (LOCK_NB ||| LOCK_UN) = some e →
        (_Flock.Unlock k (some i) w).1 = .panicked (.err e))) := by
  refine ⟨?_, ?_, ?_⟩
  · intro hs
    cases he : k.Flock w.trace f.fd (LOCK_NB ||| LOCK_UN) with
    | none => simp [_Flock.Unlock, unlockSyscall, hf, hs, he]
    | some e => simp [_Flock.Unlock, unlockSyscall, hf, hs, he]
  · intro hs hn
    have hw : wrapInt (f.users - 1) = f.users - 1 :=
      wrapInt_of_range _ (by omega) (by omega)
    have hpos : 0 < f.users - 1 := by omega
    simp [_Flock.Unlock, hf, hs, hw, hpos]
  · intro hs hn
    have hw : wrapInt (f.users - 1) = 0 := by rw [hn]; decide
    cases he : k.Flock w.trace f.fd (LOCK_NB ||| LOCK_UN) with
    | none => simp [_Flock.Unlock, unlockSyscall, hf, hs, hw, he]
    | some e => simp [_Flock.Unlock, unlockSyscall, hf, hs, hw, he]

theorem unlock_transitions_witness :
    (worldExcl.flocks[0]? = some (objAt _LS_EXCLUSIVE 0) ∧
      (_Flock.Unlock grantAll (some 0) worldExcl).2.flocks = [objAt _LS_UNLOCKED 0] ∧
      (_Flock.Unlock denyFlock (some 0) worldExcl).1 = .panicked (.err 11)) ∧
    (worldShared2.flocks[0]? = some (objAt _LS_SHARED 2) ∧
      (_Flock.Unlock denyFlock (some 0) worldShared2).2.flocks = [objAt _LS_SHARED 1]) ∧
    (worldShared1.flocks[0]? = some (objAt _LS_SHARED 1) ∧
      (_Flock.Unlock grantAll (some 0) worldShared1).2.flocks = [objAt _LS_UNLOCKED 0]) :=
  ⟨⟨by decide,
      (((unlock_transitions grantAll worldExcl 0 (objAt _LS_EXCLUSIVE 0) (by decide)
        (by decide)).1 rfl).2.1 rfl).2,
      ((unlock_transitions denyFlock worldExcl 0 (objAt _LS_EXCLUSIVE 0) (by decide)
        (by decide)).1 rfl).2.2 11 rfl⟩,
    ⟨by decide,
      ((unlock_transitions denyFlock worldShared2 0 (objAt _LS_SHARED 2) (by decide)
        (by decide)).2.1 rfl (by decide)).2.2⟩,
    ⟨by decide,
      (((unlock_transitions grantAll worldShared1 0 (objAt _LS_SHARED 1) (by decide)
        (by decide)).2.2 rfl rfl).2.1 rfl).2⟩⟩

/-- C8: `Unlock` through a handle whose object is in state Unlocked panics
(it does not return), adds nothing to the system call trace and leaves every lock
object (state, users, refcount), every handle and the registry unchanged. -/
theorem unlock_unlocked_panics (k : Kernel) (w : World) (j i : Nat) (x : Flock) (f : _Flock)
    (hh : w.handles[j]? = some x) (hx : x._Flock = some i)
    (hf : w.flocks[i]? = some f) (hs : f.state = _LS_UNLOCKED) :
    (Flock.Unlock k (some j) w).1 = .panicked .unlockUnlocked ∧
      (Flock.Unlock k (some j) w).2.trace = w.trace ∧
      (Flock.Unlock k (some j) w).2.flocks = w.flocks ∧
      (Flock.Unlock k (some j) w).2.handles = w.handles ∧
      (Flock.Unlock k (some j) w).2.cache = w.cache := by
  simp [Flock.Unlock, _Flock.Unlock, hh, hx, hf, hs]

theorem unlock_unlocked_panics_witness :
    worldNew.handles[0]? = some { _Flock := some 0, closed := 0 } ∧
      worldNew.flocks[0]? = some (objAt _LS_UNLOCKED 0) ∧
      (Flock.Unlock grantAll (some 0) worldNew).1 = .panicked .unlockUnlocked ∧
      (Flock.Unlock grantAll (some 0) worldNew).2.flocks = worldNew.flocks :=
  ⟨by decide, by decide,
    (unlock_unlocked_panics grantAll worldNew 0 0 { _Flock := some 0, closed := 0 }
      (objAt _LS_UNLOCKED 0) (by decide) rfl (by decide) rfl).1,
    (unlock_unlocked_panics grantAll worldNew 0 0 { _Flock := some 0, closed := 0 }
      (objAt _LS_UNLOCKED 0) (by decide) rfl (by decide) rfl).2.2.1⟩

/-! ## Shared holders accumulate and drain -/

theorem callN_succ_last {α : Type} (op : World → Outcome α × World) (n : Nat) (w : World) :
    callN op (n + 1) w =
      ((callN op n w).1 ++ [(op (callN op n w).2).1], (op (callN op n w).2).2) := by
  induction n generalizing w with
  | zero => simp [callN]
  | succ m ih =>
    have h := ih (op w).2
    simp only [callN] at h ⊢
    simpa using h

theorem rlock_shared_step (k : Kernel) (w : World) (i : Nat) (f : _Flock) (u : Int)
    (hf : w.flocks[i]? = some { f with users := u, state := _LS_SHARED })
    (h1 : 1 ≤ u) (h2 : u < 9223372036854775807) :
    (_Flock.TryRLock k (some i) w).1 = .ret true ∧
      (_Flock.TryRLock k (some i) w).2.trace = w.trace ∧
      (_Flock.TryRLock k (some i) w).2.flocks[i]? =
        some { f with users := u + 1, state := _LS_SHARED } := by
  have hw : wrapInt (u + 1) = u + 1 := wrapInt_of_range _ (by omega) (by omega)
  have hi : i < w.flocks.length := (List.getElem?_eq_some.mp hf).1
  simp [_Flock.TryRLock, hf, hw, hi]

theorem callN_rlock_shared (k : Kernel) (i : Nat) (f : _Flock) (n : Nat) :
    ∀ (w : World) (u : Int),
      w.flocks[i]? = some { f with users := u, state := _LS_SHARED } →
      1 ≤ u → u + n < 9223372036854775808 →
      (callN (_Flock.TryRLock k (some i)) n w).1 = List.replicate n (.ret true) ∧
        (callN (_Flock.TryRLock k (some i)) n w).2.trace = w.trace ∧
        (callN (_Flock.TryRLock k (some i)) n w).2.flocks[i]? =
          some { f with users := u + n, state := _LS_SHARED } := by
  induction n with
  | zero => intro w u hf _ _; simpa [callN] using hf
  | succ m ih =>
    intro w u hf h1 h2
    obtain ⟨a, b, c⟩ := rlock_shared_step k w i f u hf h1 (by omega)
    obtain ⟨a2, b2, c2⟩ := ih (_Flock.TryRLock k (some i) w).2 (u + 1) c (by omega)
      (by push_cast at h2 ⊢; omega)
    refine ⟨?_, ?_, ?_⟩
    · simp [callN, a, a2, List.replicate_succ]
    · simp [callN, b2, b]
    · simp only [callN, c2]
      push_cast
      congr 2
      omega

theorem unlock_shared_step (k : Kernel) (w : World) (i : Nat) (f : _Flock) (u : Int)
    (hf : w.flocks[i]? = some { f with users := u, state := _LS_SHARED })
    (h1 : 1 < u) (h2 : u < 9223372036854775808) :
    (_Flock.Unlock k (some i) w).1 = .ret () ∧
      (_Flock.Unlock k (some i) w).2.trace = w.trace ∧
      (_Flock.Unlock k (some i) w).2.flocks[i]? =
        some { f with users := u - 1, state := _LS_SHARED } := by
  have hw : wrapInt (u - 1) = u - 1 := wrapInt_of_range _ (by omega) (by omega)
  have hpos : 0 < u - 1 := by omega
  have hi : i < w.flocks.length := (List.getElem?_eq_some.mp hf).1
  simp [_Flock.Unlock, hf, hw, hi, hpos]

theorem callN_unlock_shared (k : Kernel) (i : Nat) (f : _Flock) (m : Nat) :
    ∀ (w : World) (u : Int),
      w.flocks[i]? = some { f with users := u, state := _LS_SHARED } →
      (m : Int) < u → u < 9223372036854775808 →
      (callN (_Flock.Unlock k (some i)) m w).1 = List.replicate m (.ret ()) ∧
        (callN (_Flock.Unlock k (some i)) m w).2.trace = w.trace ∧
        (callN (_Flock.Unlock k (some i)) m w).2.flocks[i]? =
          some { f with users := u - m, state := _LS_SHARED } := by
  induction m with
  | zero => intro w u hf _ _; simpa [callN] using hf
  | succ j ih =>
    intro w u hf h1 h2
    obtain ⟨a, b, c⟩ := unlock_shared_step k w i f u hf (by push_cast at h1; omega) h2
    obtain ⟨a2, b2, c2⟩ := ih (_Flock.Unlock k (some i) w).2 (u - 1) c
      (by push_cast at h1; omega) (by omega)
    refine ⟨?_, ?_, ?_⟩
    · simp [callN, a, a2, List.replicate_succ]
    · simp [callN, b2, b]
    · simp only [callN, c2]
      push_cast
      congr 2
      omega

theorem trylock_shared_false (k : Kernel) (w : World) (i : Nat) (f : _Flock) (u : Int)
    (hf : w.flocks[i]? = some { f with users := u, state := _LS_SHARED }) :
    (_Flock.TryLock k (some i) w).1 = .ret false := by
  simp [_Flock.TryLock, hf]

theorem unlock_shared_last (k : Kernel) (w : World) (i : Nat) (f : _Flock)
    (hf : w.flocks[i]? = some { f with users := 1, state := _LS_SHARED })
    (he : k.Flock w.trace f.fd (LOCK_NB ||| LOCK_UN) = none) :
    (_Flock.Unlock k (some i) w).1 = .ret () ∧
      (_Flock.Unlock k (some i) w).2.trace =
        w.trace ++ [.Flock f.fd (LOCK_NB ||| LOCK_UN) none] ∧
      (_Flock.Unlock k (some i) w).2.flocks[i]? =
        some { f with users := 0, state := _LS_UNLOCKED } := by
  have hw : wrapInt 0 = 0 := by decide
  have hi : i < w.flocks.length := (List.getElem?_eq_some.mp hf).1
  simp [_Flock.Unlock, unlockSyscall, hf, hw, hi, he]

theorem rlock_unlocked_first (k : Kernel) (w : World) (i : Nat) (f : _Flock)
    (hf : w.flocks[i]? = some f) (hs : f.state = _LS_UNLOCKED) (hu : f.users = 0)
    (hok : (_Flock.TryRLock k (some i) w).1 = .ret true) :
    (_Flock.TryRLock k (some i) w).2.trace =
        w.trace ++ [.Flock f.fd (LOCK_NB ||| LOCK_SH) none] ∧
      (_Flock.TryRLock k (some i) w).2.flocks[i]? =
        some { f with users := 1, state := _LS_SHARED } := by
  have hw : wrapInt 1 = 1 := by decide
  have hi : i < w.flocks.length := (List.getElem?_eq_some.mp hf).1
  cases he : k.Flock w.trace f.fd (LOCK_NB ||| LOCK_SH) with
  | some e => simp [_Flock.TryRLock, hf, hs, he] at hok
  | none => simp [_Flock.TryRLock, hf, hs, hu, he, hw, hi]

theorem trylock_unlocked_iff (k : Kernel) (w : World) (i : Nat) (f : _Flock)
    (hf : w.flocks[i]? = some f) (hs : f.state = _LS_UNLOCKED) :
    (_Flock.TryLock k (some i) w).1 = .ret true ↔
      k.Flock w.trace f.fd (LOCK_NB ||| LOCK_EX) = none := by
  cases he : k.Flock w.trace f.fd (LOCK_NB ||| LOCK_EX) with
  | none => simp [_Flock.TryLock, hf, hs, he]
  | some e => simp [_Flock.TryLock, hf, hs, he]

/-- C4 (amended): let an object start Unlocked with no holders and let `n >= 1` consecutive
`TryRLock` calls all return true.  Then `TryLock` returns false after any `m < n`
`Unlock` calls; and when the kernel grants the one unlock request, the `n` `Unlock`
calls all return, issue exactly that one system call and leave the object as it
started (Unlocked, count 0), after which `TryLock` returns true exactly when the
kernel grants the exclusive request. -/
theorem shared_drain_then_exclusive (k : Kernel) (w : World) (i : Nat) (f : _Flock) (n : Nat)
    (hf : w.flocks[i]? = some f) (hs : f.state = _LS_UNLOCKED) (hu : f.users = 0)
    (hn : 1 ≤ n) (hmax : (n : Int) < 9223372036854775808)
    (hok : (callN (_Flock.TryRLock k (some i)) n w).1 = List.replicate n (.ret true)) :
    (∀ m, m < n →
      (_Flock.TryLock k (some i) (callN (_Flock.Unlock k (some i)) m
        (callN (_Flock.TryRLock k (some i)) n w).2).2).1 = .ret false) ∧
    (k.Flock (callN (_Flock.TryRLock k (some i)) n w).2.trace f.fd
        (LOCK_NB ||| LOCK_UN) = none →
      (callN (_Flock.Unlock k (some i)) n
        (callN (_Flock.TryRLock k (some i)) n w).2).1 = List.replicate n (.ret ()) ∧
      (callN (_Flock.Unlock k (some i)) n
        (callN (_Flock.TryRLock k (some i)) n w).2).2.flocks[i]? = some f ∧
      (callN (_Flock.Unlock k (some i)) n
        (callN (_Flock.TryRLock k (some i)) n w).2).2.trace =
        (callN (_Flock.TryRLock k (some i)) n w).2.trace ++
          [.Flock f.fd (LOCK_NB ||| LOCK_UN) none] ∧
      ((_Flock.TryLock k (some i) (callN (_Flock.Unlock k (some i)) n
          (callN (_Flock.TryRLock k (some i)) n w).2).2).1 = .ret true ↔
        k.Flock (callN (_Flock.Unlock k (some i)) n
          (callN (_Flock.TryRLock k (some i)) n w).2).2.trace f.fd
          (LOCK_NB ||| LOCK_EX) = none)) := by
  obtain ⟨j, rfl⟩ : ∃ j, n = j + 1 := ⟨n - 1, by omega⟩
  -- the first call goes to the kernel, the others only count
  have hfirst : (_Flock.TryRLock k (some i) w).1 = .ret true := by
    simp only [callN, List.replicate_succ, List.cons.injEq] at hok
    exact hok.1
  obtain ⟨t1, g1⟩ := rlock_unlocked_first k w i f hf hs hu hfirst
  obtain ⟨_, t2, g2⟩ := callN_rlock_shared k i f j (_Flock.TryRLock k (some i) w).2 1 g1
    (by omega) (by push_cast at hmax; omega)
  have hW : (callN (_Flock.TryRLock k (some i)) (j + 1) w).2 =
      (callN (_Flock.TryRLock k (some i)) j (_Flock.TryRLock k (some i) w).2).2 := by
    simp [callN]
  rw [hW]
  generalize (callN (_Flock.TryRLock k (some i)) j (_Flock.TryRLock k (some i) w).2).2 = w1
    at t2 g2 ⊢
  have g2q : w1.flocks[i]? = some { f with users := ((j + 1 : Nat) : Int), state := _LS_SHARED } := by
    rw [g2]
    push_cast
    congr 2
    omega
  refine ⟨?_, ?_⟩
  · intro m hm
    obtain ⟨_, _, c⟩ := callN_unlock_shared k i f m w1 _ g2q (by push_cast; omega) hmax
    exact trylock_shared_false k _ i f _ c
  · intro he
    obtain ⟨a, b, c⟩ := callN_unlock_shared k i f j w1 _ g2q (by push_cast; omega) hmax
    have c1 : (callN (_Flock.Unlock k (some i)) j w1).2.flocks[i]? =
        some { f with users := 1, state := _LS_SHARED } := by
      rw [c]
      push_cast
      congr 2
      omega
    obtain ⟨a3, b3, c3⟩ := unlock_shared_last k _ i f c1 (by rw [b]; exact he)
    have hback : ({ f with users := 0, state := _LS_UNLOCKED } : _Flock) = f := by
      cases f
      simp only [] at hs hu
      subst hs hu
      rfl
    rw [hback] at c3
    rw [callN_succ_last]
    refine ⟨?_, c3, ?_, ?_⟩
    · rw [a, a3, List.replicate_succ']
    · rw [b3, b]
    · exact trylock_unlocked_iff k _ i f c3 hs

theorem shared_drain_then_exclusive_witness :
    worldNew.flocks[0]? = some (objAt _LS_UNLOCKED 0) ∧
      (callN (_Flock.TryRLock grantAll (some 0)) 3 worldNew).1 =
        List.replicate 3 (.ret true) ∧
      (_Flock.TryLock grantAll (some 0) (callN (_Flock.Unlock grantAll (some 0)) 2
        (callN (_Flock.TryRLock grantAll (some 0)) 3 worldNew).2).2).1 = .ret false ∧
      (callN (_Flock.Unlock grantAll (some 0)) 3
        (callN (_Flock.TryRLock grantAll (some 0)) 3 worldNew).2).2.flocks[0]? =
        some (objAt _LS_UNLOCKED 0) :=
  ⟨by decide, by decide,
    (shared_drain_then_exclusive grantAll worldNew 0 (objAt _LS_UNLOCKED 0) 3 (by decide)
      rfl rfl (by decide) (by decide) (by decide)).1 2 (by decide),
    ((shared_drain_then_exclusive grantAll worldNew 0 (objAt _LS_UNLOCKED 0) 3 (by decide)
      rfl rfl (by decide) (by decide) (by decide)).2 rfl).2.1⟩

/-- C4 (counterexample): the object of `worldNegCount` is Unlocked, with
shared-holder count -1 left by an `Unlock` that panicked on a refused unlock request.
Three `TryRLock` calls return true, and after only two `Unlock` calls the object is
Unlocked again, so that `TryLock` returns true before the third `Unlock`. -/
theorem shared_drain_early_from_negative_count :
    worldNegCount.flocks = [objAt _LS_UNLOCKED (-1)] ∧
    (callN (_Flock.TryRLock grantAll (some 0)) 3 worldNegCount).1 =
      List.replicate 3 (.ret true) ∧
    (callN (_Flock.Unlock grantAll (some 0)) 2
      (callN (_Flock.TryRLock grantAll (some 0)) 3 worldNegCount).2).1 =
      List.replicate 2 (.ret ()) ∧
    (callN (_Flock.Unlock grantAll (some 0)) 2
      (callN (_Flock.TryRLock grantAll (some 0)) 3 worldNegCount).2).2.flocks =
      [objAt _LS_UNLOCKED 0] ∧
    (_Flock.TryLock grantAll (some 0) (callN (_Flock.Unlock grantAll (some 0)) 2
      (callN (_Flock.TryRLock grantAll (some 0)) 3 worldNegCount).2).2).1 = .ret true := by
  decide

/-- C6 (counterexample): on the Unlocked object of `worldNegCount`, whose
shared-holder count is -1, a granted `TryRLock` returns true and leaves the object
in state Shared with count 0, not 1. -/
theorem unlocked_rlock_from_negative_count :
    worldNegCount.flocks = [objAt _LS_UNLOCKED (-1)] ∧
    (_Flock.TryRLock grantAll (some 0) worldNegCount).1 = .ret true ∧
    (_Flock.TryRLock grantAll (some 0) worldNegCount).2.flocks = [objAt _LS_SHARED 0] := by
  decide

/-! ## Acquiring and releasing handles -/

theorem incref_frame (p : Ptr) (w : World) :
    (_Flock.incref p w).2.cache = w.cache ∧ (_Flock.incref p w).2.trace = w.trace ∧
      (_Flock.incref p w).2.handles = w.handles := by
  unfold _Flock.incref
  cases p with
  | none => simp
  | some i =>
    cases hf : w.flocks[i]? with
    | none => simp [hf]
    | some f => simp [hf]

theorem wrapFlock_frame (p : Ptr) (w : World) :
    (wrapFlock p w).2.cache = w.cache ∧ (wrapFlock p w).2.trace = w.trace := by
  have h := incref_frame p w
  unfold wrapFlock
  cases hr : _Flock.incref p w with
  | mk o w2 =>
    rw [hr] at h
    cases o with
    | ret a => simpa using ⟨h.1, h.2.1⟩
    | panicked v => simpa using ⟨h.1, h.2.1⟩

/-- The registry map is the same after `NewFlock` as before it, whatever happens. -/
theorem NewFlock_cache (k : Kernel) (fd : Int) (w : World) :
    (NewFlock k fd w).2.cache = w.cache := by
  unfold NewFlock getFid
  cases hst : k.Fstat w.trace fd with
  | error e => simp
  | ok st =>
    simp only [World.sys, World.mtx]
    cases hl : w.cache.lookup ⟨st.Dev, st.Ino⟩ with
    | some i =>
      simp only []
      have h := (wrapFlock_frame (some i)
        { flocks := w.flocks, handles := w.handles, cache := w.cache,
          trace := w.trace ++ [.Fstat fd (.ok st)],
          mtxlog := w.mtxlog ++ [.Lock .cache] }).1
      split <;> rename_i heq <;> rw [heq] at h <;> simpa using h
    | none =>
      simp only []
      cases hd : k.Dup (w.trace ++ [.Fstat fd (.ok st)]) fd with
      | error e => simp
      | ok nfd =>
        simp only []
        split <;> rename_i heq <;>
          have h := (wrapFlock_frame _ _).1.symm.trans (congrArg (fun r => r.2.cache) heq) <;>
          simpa using h.symm

theorem NewFlock_fstat_err (k : Kernel) (fd : Int) (w : World) (e : Errno)
    (hst : k.Fstat w.trace fd = .error e) :
    NewFlock k fd w = (.ret (none, some e), w.sys (.Fstat fd (.error e))) := by
  simp [NewFlock, getFid, hst]

theorem NewFlock_dup_err (k : Kernel) (fd : Int) (w : World) (st : Stat_t) (e : Errno)
    (hst : k.Fstat w.trace fd = .ok st) (hl : w.cache.lookup ⟨st.Dev, st.Ino⟩ = none)
    (hd : k.Dup (w.trace ++ [.Fstat fd (.ok st)]) fd = .error e) :
    NewFlock k fd w = (.ret (none, some e),
      { w with trace := w.trace ++ [.Fstat fd (.ok st), .Dup fd (.error e)],
               mtxlog := w.mtxlog ++ [.Lock .cache, .Unlock .cache] }) := by
  simp [NewFlock, getFid, hst, hl, hd]

theorem NewFlock_fresh (k : Kernel) (fd : Int) (w : World) (st : Stat_t) (nfd : Int)
    (hst : k.Fstat w.trace fd = .ok st) (hl : w.cache.lookup ⟨st.Dev, st.Ino⟩ = none)
    (hd : k.Dup (w.trace ++ [.Fstat fd (.ok st)]) fd = .ok nfd) :
    NewFlock k fd w = (.ret (some w.handles.length, none),
      { flocks := w.flocks ++ [{ fid := ⟨st.Dev, st.Ino⟩, state := _LS_UNLOCKED, fd := nfd,
                                 refcount := 1, users := 0 }],
        handles := w.handles ++ [{ _Flock := some w.flocks.length, closed := 0 }],
        cache := w.cache,
        trace := w.trace ++ [.Fstat fd (.ok st), .Dup fd (.ok nfd)],
        mtxlog := w.mtxlog ++ [.Lock .cache, .Lock (.flock w.flocks.length),
          .Unlock (.flock w.flocks.length), .Unlock .cache] }) := by
  have hw : wrapInt 1 = 1 := by decide
  simp [NewFlock, getFid, hst, hl, hd, wrapFlock, _Flock.incref, hw]

theorem NewFlock_hit (k : Kernel) (fd : Int) (w : World) (st : Stat_t) (i : Nat)
    (hst : k.Fstat w.trace fd = .ok st) (hl : w.cache.lookup ⟨st.Dev, st.Ino⟩ = some i)
    (p : Ptr) (e : Errno) : (NewFlock k fd w).1 ≠ .ret (p, some e) := by
  cases hf : w.flocks[i]? with
  | none => simp [NewFlock, getFid, hst, hl, wrapFlock, _Flock.incref, hf]
  | some f => simp [NewFlock, getFid, hst, hl, wrapFlock, _Flock.incref, hf]

/-- C9: `NewFlock(fd)` returns a non-nil error exactly when `fstat` fails, or the
identity has no registry entry and `dup` fails; the returned handle is then nil;
a failing `fstat` is the only system call made; and in every error case the lock
objects, the handles and the registry are unchanged and the calls made are the
`fstat` alone or the `fstat` and the failed `dup`, so no descriptor was opened. -/
theorem newFlock_error_iff (k : Kernel) (fd : Int) (w : World) :
    ((∃ p e, (NewFlock k fd w).1 = .ret (p, some e)) ↔
      ((∃ e, k.Fstat w.trace fd = .error e) ∨
        ∃ st, k.Fstat w.trace fd = .ok st ∧ w.cache.lookup ⟨st.Dev, st.Ino⟩ = none ∧
          ∃ e, k.Dup (w.trace ++ [.Fstat fd (.ok st)]) fd = .error e)) ∧
    (∀ e, k.Fstat w.trace fd = .error e →
      (NewFlock k fd w).2.trace = w.trace ++ [.Fstat fd (.error e)]) ∧
    (∀ p e, (NewFlock k fd w).1 = .ret (p, some e) →
      p = none ∧
      (NewFlock k fd w).2.flocks = w.flocks ∧
      (NewFlock k fd w).2.handles = w.handles ∧
      (NewFlock k fd w).2.cache = w.cache ∧
      ((NewFlock k fd w).2.trace = w.trace ++ [.Fstat fd (.error e)] ∨
        ∃ st, (NewFlock k fd w).2.trace =
          w.trace ++ [.Fstat fd (.ok st), .Dup fd (.error e)])) := by
  cases hst : k.Fstat w.trace fd with
  | error e0 =>
    rw [NewFlock_fstat_err k fd w e0 hst]
    refine ⟨⟨fun _ => Or.inl ⟨e0, rfl⟩, fun _ => ⟨none, e0, rfl⟩⟩, ?_, ?_⟩
    · intro e he
      cases he
      rfl
    · intro p e he
      simp only [Outcome.ret.injEq, Prod.mk.injEq, Option.some.injEq] at he
      obtain ⟨rfl, rfl⟩ := he
      exact ⟨rfl, rfl, rfl, rfl, Or.inl rfl⟩
  | ok st =>
    cases hl : w.cache.lookup ⟨st.Dev, st.Ino⟩ with
    | some i =>
      have hne := NewFlock_hit k fd w st i hst hl
      refine ⟨⟨fun ⟨p, e, h⟩ => absurd h (hne p e), ?_⟩, ?_, ?_⟩
      · rintro (⟨e, he⟩ | ⟨st2, h1, h2, _⟩)
        · cases he
        · cases h1
          rw [hl] at h2
          cases h2
      · intro e he
        cases he
      · intro p e h
        exact absurd h (hne p e)
    | none =>
      cases hd : k.Dup (w.trace ++ [.Fstat fd (.ok st)]) fd with
      | error e0 =>
        rw [NewFlock_dup_err k fd w st e0 hst hl hd]
        refine ⟨⟨fun _ => Or.inr ⟨st, rfl, hl, e0, hd⟩, fun _ => ⟨none, e0, rfl⟩⟩, ?_, ?_⟩
        · intro e he
          cases he
        · intro p e he
          simp only [Outcome.ret.injEq, Prod.mk.injEq, Option.some.injEq] at he
          obtain ⟨rfl, rfl⟩ := he
          exact ⟨rfl, rfl, rfl, rfl, Or.inr ⟨st, rfl⟩⟩
      | ok nfd =>
        rw [NewFlock_fresh k fd w st nfd hst hl hd]
        refine ⟨⟨?_, ?_⟩, ?_, ?_⟩
        · rintro ⟨p, e, h⟩
          simp at h
        · rintro (⟨e, he⟩ | ⟨st2, h1, h2, e, h3⟩)
          · cases he
          · cases h1
            rw [hd] at h3
            cases h3
        · intro e he
          cases he
        · intro p e h
          simp at h

theorem Close_handles (k : Kernel) (p : Ptr) (w : World) :
    (_Flock.Close k p w).2.handles = w.handles := by
  unfold _Flock.Close
  cases p with
  | none => rfl
  | some i =>
    cases hf : w.flocks[i]? with
    | none => simp [hf]
    | some f =>
      simp only [hf]
      by_cases hr : wrapInt (f.refcount - 1) > 0
      · simp [hr]
      · cases hc : k.Close w.trace f.fd with
        | none => simp [hr, hc]
        | some e => simp [hr, hc]

/-- Every system call `_Flock.Close` makes is one `close`, and it makes at most one. -/
theorem Close_trace (k : Kernel) (p : Ptr) (w : World) :
    (_Flock.Close k p w).2.trace = w.trace ∨
      ∃ fd err, (_Flock.Close k p w).2.trace = w.trace ++ [.Close fd err] := by
  unfold _Flock.Close
  cases p with
  | none => exact Or.inl rfl
  | some i =>
    cases hf : w.flocks[i]? with
    | none => simp [hf]
    | some f =>
      simp only [hf]
      by_cases hr : wrapInt (f.refcount - 1) > 0
      · simp [hr]
      · cases hc : k.Close w.trace f.fd with
        | none => simp [hr, hc]
        | some e => simp [hr, hc]

/-- A handle whose `closed` flag is not 0 makes `Flock.Close` return at once. -/
theorem Flock_Close_closed (k : Kernel) (j : Nat) (w : World) (x : Flock)
    (hx : w.handles[j]? = some x) (hc : x.closed ≠ 0) :
    Flock.Close k (some j) w = (.ret (), w) := by
  simp [Flock.Close, hx, hc]

/-- After `Flock.Close` on a live handle the flag of that handle is 1. -/
theorem Flock_Close_sets_flag (k : Kernel) (j : Nat) (w : World) (x : Flock)
    (hx : w.handles[j]? = some x) (hc : x.closed = 0) :
    ∃ y, (Flock.Close k (some j) w).2.handles[j]? = some y ∧ y.closed = 1 := by
  have hj : j < w.handles.length := (List.getElem?_eq_some.mp hx).1
  have hh := Close_handles k x._Flock (w.setHandle j { x with closed := 1 })
  unfold Flock.Close
  simp only [hx, hc, if_true]
  cases hr : _Flock.Close k x._Flock (w.setHandle j { x with closed := 1 }) with
  | mk o w2 =>
    rw [hr] at hh
    simp only [World.setHandle] at hh
    cases o with
    | ret a =>
      refine ⟨{ _Flock := none, closed := 1 }, ?_, rfl⟩
      have hj2 : j < w2.handles.length := by rw [hh]; simpa using hj
      simp [hj2]
    | panicked v =>
      refine ⟨{ x with closed := 1 }, ?_, rfl⟩
      simp [hh, hj]

theorem Flock_Close_twice (k : Kernel) (h : Ptr) (w : World) :
    (Flock.Close k h (Flock.Close k h w).2).2 = (Flock.Close k h w).2 := by
  cases h with
  | none => rfl
  | some j =>
    cases hx : w.handles[j]? with
    | none => simp [Flock.Close, hx]
    | some x =>
      by_cases hc : x.closed = 0
      · obtain ⟨y, hy, hy1⟩ := Flock_Close_sets_flag k j w x hx hc
        rw [Flock_Close_closed k j _ y hy (by rw [hy1]; decide)]
      · rw [Flock_Close_closed k j w x hx hc, Flock_Close_closed k j w x hx hc]

theorem callN_fixed {α : Type} (op : World → Outcome α × World) (w : World)
    (hfix : (op w).2 = w) : ∀ n, (callN op n w).2 = w := by
  intro n
  induction n with
  | zero => rfl
  | succ m ih => simp only [callN, hfix, ih]

/-- C10: `Close` on a handle is idempotent.  Calling it twice, or any `n + 1 >= 1`
times in a row, leaves the whole world (handles with their released flags, lock
objects with their refcounts and descriptors, registry, system call trace, mutex
log) exactly as one call leaves it; so only the first call can decrement the
refcount, and all the calls together issue at most one `close` system call. -/
theorem handle_close_idempotent (k : Kernel) (h : Ptr) (w : World) (n : Nat) :
    (Flock.Close k h (Flock.Close k h w).2).2 = (Flock.Close k h w).2 ∧
    (callN (Flock.Close k h) (n + 1) w).2 = (Flock.Close k h w).2 ∧
    ((callN (Flock.Close k h) (n + 1) w).2.trace = w.trace ∨
      ∃ fd err, (callN (Flock.Close k h) (n + 1) w).2.trace = w.trace ++ [.Close fd err]) := by
  have h2 := Flock_Close_twice k h w
  have hn : (callN (Flock.Close k h) (n + 1) w).2 = (Flock.Close k h w).2 := by
    simp only [callN]
    exact callN_fixed _ _ h2 n
  refine ⟨h2, hn, ?_⟩
  rw [hn]
  cases h with
  | none => exact Or.inl rfl
  | some j =>
    cases hx : w.handles[j]? with
    | none => simp [Flock.Close, hx]
    | some x =>
      by_cases hc : x.closed = 0
      · have ht := Close_trace k x._Flock (w.setHandle j { x with closed := 1 })
        unfold Flock.Close
        simp only [hx, hc, if_true]
        cases hr : _Flock.Close k x._Flock (w.setHandle j { x with closed := 1 }) with
        | mk o w2 =>
          rw [hr] at ht
          cases o with
          | ret a => simpa using ht
          | panicked v => simpa using ht
      · rw [Flock_Close_closed k j w x hx hc]
        exact Or.inl rfl

/-! ## The registry is never filled -/

/-- C1 (code evaluated at the failing input): with an empty registry `NewFlock(3)`
succeeds and the registry is still empty afterwards; `NewFlock(4)` on a descriptor of
the same identity then calls `dup` again and returns a handle on a second object,
and both objects have refcount 1. -/
theorem newFlock_does_not_register :
    (NewFlock grantAll 3 World.empty).1 = .ret (some 0, none) ∧
    (NewFlock grantAll 3 World.empty).2.cache = [] ∧
    (NewFlock grantAll 4 worldNew).1 = .ret (some 1, none) ∧
    worldTwo.trace = [.Fstat 3 (.ok ⟨1, 1⟩), .Dup 3 (.ok 11),
      .Fstat 4 (.ok ⟨1, 1⟩), .Dup 4 (.ok 13)] ∧
    worldTwo.handles = [{ _Flock := some 0, closed := 0 }, { _Flock := some 1, closed := 0 }] ∧
    worldTwo.flocks = [objAt _LS_UNLOCKED 0, { objAt _LS_UNLOCKED 0 with fd := 13 }] := by
  decide

/-- C2 (code evaluated at the failing input): handles A and B come from two
descriptors of one identity; `A.TryLock()` returns true, and with a kernel that
grants the requests `B.TryLock()` and `B.TryRLock()` issued before any `A.Unlock()`
return true as well, each after a `flock` call on the second object. -/
theorem coidentical_handle_not_blocked :
    (Flock.TryLock grantAll (some 0) worldTwo).1 = .ret true ∧
    (Flock.TryLock grantAll (some 1) (Flock.TryLock grantAll (some 0) worldTwo).2).1 =
      .ret true ∧
    (Flock.TryRLock grantAll (some 1) (Flock.TryLock grantAll (some 0) worldTwo).2).1 =
      .ret true ∧
    (Flock.TryLock grantAll (some 1) (Flock.TryLock grantAll (some 0) worldTwo).2).2.trace =
      worldTwo.trace ++ [.Flock 11 (LOCK_NB ||| LOCK_EX) none,
        .Flock 13 (LOCK_NB ||| LOCK_EX) none] := by
  decide

/-! ## Dropping a reference (`_Flock.Close`) -/

theorem lookup_filter_ne (l : List (_FileID × Nat)) (a : _FileID) :
    (l.filter (fun kv => decide (kv.1 ≠ a))).lookup a = none := by
  simp
  intro b _ _ hne e
  exact hne e.symm

/-- C11 (amended): on an object with refcount `r >= 1`, `_Flock.Close` always
stores `r - 1`.  If `r - 1 > 0` it returns with no system call, and the descriptor,
the lock state and the registry are unchanged.  If `r - 1 = 0` it issues exactly one
`close` on the owned descriptor; when the kernel grants it the call returns, the
`fd` field is -1 and the registry has no entry for the identity; when the kernel
refuses it the call panics with that error and the `fd` field and the registry stay
as they were. -/
theorem flock_close_effects (k : Kernel) (w : World) (i : Nat) (f : _Flock)
    (hf : w.flocks[i]? = some f) (h1 : 1 ≤ f.refcount)
    (h2 : f.refcount < 9223372036854775808) :
    (∃ g, (_Flock.Close k (some i) w).2.flocks[i]? = some g ∧
      g.refcount = f.refcount - 1) ∧
    (1 < f.refcount →
      (_Flock.Close k (some i) w).1 = .ret () ∧
      (_Flock.Close k (some i) w).2.trace = w.trace ∧
      (_Flock.Close k (some i) w).2.cache = w.cache ∧
      (_Flock.Close k (some i) w).2.flocks =
        w.flocks.set i { f with refcount := f.refcount - 1 }) ∧
    (f.refcount = 1 →
      (_Flock.Close k (some i) w).2.trace =
        w.trace ++ [.Close f.fd (k.Close w.trace f.fd)] ∧
      (k.Close w.trace f.fd = none →
        (_Flock.Close k (some i) w).1 = .ret () ∧
        (_Flock.Close k (some i) w).2.flocks =
          w.flocks.set i { f with refcount := 0, fd := -1 } ∧
        (_Flock.Close k (some i) w).2.cache.lookup f.fid = none) ∧
      (∀ e, k.Close w.trace f.fd = some e →
        (_Flock.Close k (some i) w).1 = .panicked (.err e) ∧
        (_Flock.Close k (some i) w).2.flocks =
          w.flocks.set i { f with refcount := 0 } ∧
        (_Flock.Close k (some i) w).2.cache = w.cache)) := by
  have hw : wrapInt (f.refcount - 1) = f.refcount - 1 :=
    wrapInt_of_range _ (by omega) (by omega)
  have hi : i < w.flocks.length := (List.getElem?_eq_some.mp hf).1
  refine ⟨?_, ?_, ?_⟩
  · by_cases hr : 0 < f.refcount - 1
    · exact ⟨{ f with refcount := f.refcount - 1 }, by
        simp [_Flock.Close, hf, hw, hr, hi], rfl⟩
    · cases hc : k.Close w.trace f.fd with
      | none =>
        exact ⟨{ f with refcount := f.refcount - 1, fd := -1 }, by
          simp [_Flock.Close, hf, hw, hr, hi, hc], rfl⟩
      | some e =>
        exact ⟨{ f with refcount := f.refcount - 1 }, by
          simp [_Flock.Close, hf, hw, hr, hi, hc], rfl⟩
  · intro hr
    have hpos : 0 < f.refcount - 1 := by omega
    simp [_Flock.Close, hf, hw, hpos]
  · intro hr
    have hw0 : wrapInt 0 = 0 := by decide
    cases hc : k.Close w.trace f.fd with
    | none =>
      simp [_Flock.Close, hf, hr, hw0, hc]
      intro b _ _ hne e
      exact hne e.symm
    | some e => simp [_Flock.Close, hf, hr, hw0, hc]

theorem flock_close_effects_witness :
    worldNew.flocks[0]? = some (objAt _LS_UNLOCKED 0) ∧
      (_Flock.Close grantAll (some 0) worldNew).2.flocks =
        [{ objAt _LS_UNLOCKED 0 with refcount := 0, fd := -1 }] ∧
      (_Flock.Close denyClose (some 0) worldNew).1 = .panicked (.err 5) :=
  ⟨by decide,
    (((flock_close_effects grantAll worldNew 0 (objAt _LS_UNLOCKED 0) (by decide) (by decide)
      (by decide)).2.2 rfl).2.1 rfl).2.1,
    (((flock_close_effects denyClose worldNew 0 (objAt _LS_UNLOCKED 0) (by decide) (by decide)
      (by decide)).2.2 rfl).2.2 5 rfl).1⟩

/-- C11 (counterexample): the one object of `worldNew` has refcount 1; when the
kernel refuses the `close`, `_Flock.Close` panics and the object keeps its `fd`
field 11 (it is not set to -1) with refcount 0. -/
theorem flock_close_failed_keeps_fd :
    worldNew.flocks = [objAt _LS_UNLOCKED 0] ∧
    (_Flock.Close denyClose (some 0) worldNew).1 = .panicked (.err 5) ∧
    (_Flock.Close denyClose (some 0) worldNew).2.flocks =
      [{ objAt _LS_UNLOCKED 0 with refcount := 0 }] ∧
    (_Flock.Close denyClose (some 0) worldNew).2.trace =
      worldNew.trace ++ [.Close 11 (some 5)] := by
  decide

/-! ## When releasing a handle fails -/

/-- C12 (amended): `Close` on a handle returns normally when the handle was
already released, when other handles keep the object alive (refcount above 1), and
when the kernel grants the `close` of the owned descriptor; when it is the first
`Close` of the last handle and the kernel refuses that `close`, it panics with the
kernel error. -/
theorem handle_close_outcome (k : Kernel) (w : World) (j : Nat) (x : Flock)
    (hx : w.handles[j]? = some x) :
    (x.closed ≠ 0 → Flock.Close k (some j) w = (.ret (), w)) ∧
    (x.closed = 0 → ∀ i f, x._Flock = some i → w.flocks[i]? = some f →
      1 ≤ f.refcount → f.refcount < 9223372036854775808 →
      (1 < f.refcount → (Flock.Close k (some j) w).1 = .ret ()) ∧
      (k.Close w.trace f.fd = none → (Flock.Close k (some j) w).1 = .ret ()) ∧
      (∀ e, f.refcount = 1 → k.Close w.trace f.fd = some e →
        (Flock.Close k (some j) w).1 = .panicked (.err e))) := by
  refine ⟨fun hc => Flock_Close_closed k j w x hx hc, ?_⟩
  intro hc i f hp hf h1 h2
  have hw : wrapInt (f.refcount - 1) = f.refcount - 1 :=
    wrapInt_of_range _ (by omega) (by omega)
  refine ⟨?_, ?_, ?_⟩
  · intro hr
    have hpos : 0 < f.refcount - 1 := by omega
    simp [Flock.Close, _Flock.Close, hx, hc, hp, hf, hw, hpos]
  · intro hk
    by_cases hpos : 0 < f.refcount - 1
    · simp [Flock.Close, _Flock.Close, hx, hc, hp, hf, hw, hpos]
    · simp [Flock.Close, _Flock.Close, hx, hc, hp, hf, hw, hpos, hk]
  · intro e hr hk
    have hw0 : wrapInt 0 = 0 := by decide
    simp [Flock.Close, _Flock.Close, hx, hc, hp, hf, hr, hw0, hk]

theorem handle_close_outcome_witness :
    worldNew.handles[0]? = some { _Flock := some 0, closed := 0 } ∧
      (Flock.Close grantAll (some 0) worldNew).1 = .ret () ∧
      (Flock.Close denyClose (some 0) worldNew).1 = .panicked (.err 5) :=
  ⟨by decide,
    ((handle_close_outcome grantAll worldNew 0 { _Flock := some 0, closed := 0 }
      (by decide)).2 rfl 0 (objAt _LS_UNLOCKED 0) rfl (by decide) (by decide)
      (by decide)).2.1 rfl,
    ((handle_close_outcome denyClose worldNew 0 { _Flock := some 0, closed := 0 }
      (by decide)).2 rfl 0 (objAt _LS_UNLOCKED 0) rfl (by decide) (by decide)
      (by decide)).2.2 5 rfl rfl⟩

/-- C12 (counterexample): the last handle of an object is closed while the kernel
refuses the `close` of the owned descriptor; `Close` does not return, it panics. -/
theorem handle_close_can_panic :
    worldNew.handles = [{ _Flock := some 0, closed := 0 }] ∧
    (Flock.Close denyClose (some 0) worldNew).1 = .panicked (.err 5) := by
  decide

/-! ## Last release, then a fresh acquire -/

/-- A `NewFlock` that returns a handle without error on a world whose registry has no
entry for the identity has duplicated the descriptor and built a new object. -/
theorem NewFlock_success_miss (k : Kernel) (fd : Int) (w : World) (st : Stat_t) (h : Ptr)
    (hst : k.Fstat w.trace fd = .ok st) (hl : w.cache.lookup ⟨st.Dev, st.Ino⟩ = none)
    (hok : (NewFlock k fd w).1 = .ret (h, none)) :
    ∃ nfd, k.Dup (w.trace ++ [.Fstat fd (.ok st)]) fd = .ok nfd ∧
      h = some w.handles.length ∧
      (NewFlock k fd w).2.trace = w.trace ++ [.Fstat fd (.ok st), .Dup fd (.ok nfd)] ∧
      (NewFlock k fd w).2.handles =
        w.handles ++ [{ _Flock := some w.flocks.length, closed := 0 }] ∧
      (NewFlock k fd w).2.flocks =
        w.flocks ++ [{ fid := ⟨st.Dev, st.Ino⟩, state := _LS_UNLOCKED, fd := nfd,
                       refcount := 1, users := 0 }] ∧
      (NewFlock k fd w).2.cache = w.cache := by
  cases hd : k.Dup (w.trace ++ [.Fstat fd (.ok st)]) fd with
  | error e =>
    rw [NewFlock_dup_err k fd w st e hst hl hd] at hok
    simp at hok
  | ok nfd =>
    rw [NewFlock_fresh k fd w st nfd hst hl hd] at hok ⊢
    simp only [Outcome.ret.injEq, Prod.mk.injEq] at hok
    exact ⟨nfd, rfl, hok.1.symm, rfl, rfl, rfl, rfl⟩

/-- C14: when the `Close` of the last handle of an object (refcount 1, any lock
state) returns, the owned descriptor has been closed by one granted `close` call,
the object's `fd` field is -1 and the registry has no entry for the identity; a
following `NewFlock` on a descriptor of that identity that returns a handle has
duplicated the descriptor again and its handle wraps a newly allocated object in
state Unlocked with shared-holder count 0 and refcount 1. -/
theorem last_release_then_fresh (k : Kernel) (w : World) (j i : Nat) (x : Flock) (f : _Flock)
    (hx : w.handles[j]? = some x) (hc : x.closed = 0) (hp : x._Flock = some i)
    (hf : w.flocks[i]? = some f) (hr : f.refcount = 1)
    (hret : (Flock.Close k (some j) w).1 = .ret ()) :
    (Flock.Close k (some j) w).2.trace = w.trace ++ [.Close f.fd none] ∧
    (Flock.Close k (some j) w).2.flocks =
      w.flocks.set i { f with refcount := 0, fd := -1 } ∧
    (Flock.Close k (some j) w).2.cache.lookup f.fid = none ∧
    (∀ (fd : Int) (st : Stat_t) (h : Ptr),
      k.Fstat (Flock.Close k (some j) w).2.trace fd = .ok st →
      (⟨st.Dev, st.Ino⟩ : _FileID) = f.fid →
      (NewFlock k fd (Flock.Close k (some j) w).2).1 = .ret (h, none) →
      ∃ nfd, k.Dup ((Flock.Close k (some j) w).2.trace ++ [.Fstat fd (.ok st)]) fd = .ok nfd ∧
        h = some (Flock.Close k (some j) w).2.handles.length ∧
        (NewFlock k fd (Flock.Close k (some j) w).2).2.trace =
          (Flock.Close k (some j) w).2.trace ++ [.Fstat fd (.ok st), .Dup fd (.ok nfd)] ∧
        (NewFlock k fd (Flock.Close k (some j) w).2).2.handles =
          (Flock.Close k (some j) w).2.handles ++
            [{ _Flock := some (Flock.Close k (some j) w).2.flocks.length, closed := 0 }] ∧
        (NewFlock k fd (Flock.Close k (some j) w).2).2.flocks =
          (Flock.Close k (some j) w).2.flocks ++
            [{ fid := f.fid, state := _LS_UNLOCKED, fd := nfd, refcount := 1, users := 0 }]) := by
  have hw0 : wrapInt 0 = 0 := by decide
  have hk : k.Close w.trace f.fd = none := by
    cases hk : k.Close w.trace f.fd with
    | none => rfl
    | some e => simp [Flock.Close, _Flock.Close, hx, hc, hp, hf, hr, hw0, hk] at hret
  have hlk : (Flock.Close k (some j) w).2.cache.lookup f.fid = none := by
    simp [Flock.Close, _Flock.Close, hx, hc, hp, hf, hr, hw0, hk]
    intro b _ _ hne e
    exact hne e.symm
  refine ⟨?_, ?_, hlk, ?_⟩
  · simp [Flock.Close, _Flock.Close, hx, hc, hp, hf, hr, hw0, hk]
  · simp [Flock.Close, _Flock.Close, hx, hc, hp, hf, hr, hw0, hk]
  · intro fd st h hst hid hok
    rw [← hid] at hlk
    obtain ⟨nfd, a, b, c, d, e, _⟩ := NewFlock_success_miss k fd _ st h hst hlk hok
    rw [hid] at e
    exact ⟨nfd, a, b, c, d, e⟩

theorem last_release_then_fresh_witness :
    worldShared1.handles[0]? = some { _Flock := some 0, closed := 0 } ∧
      worldShared1.flocks[0]? = some (objAt _LS_SHARED 1) ∧
      (Flock.Close grantAll (some 0) worldShared1).1 = .ret () ∧
      (Flock.Close grantAll (some 0) worldShared1).2.flocks =
        [{ objAt _LS_SHARED 1 with refcount := 0, fd := -1 }] ∧
      (Flock.Close grantAll (some 0) worldShared1).2.cache.lookup ⟨1, 1⟩ = none ∧
      (NewFlock grantAll 4 (Flock.Close grantAll (some 0) worldShared1).2).1 =
        .ret (some 1, none) ∧
      ∃ nfd : Int, (NewFlock grantAll 4 (Flock.Close grantAll (some 0) worldShared1).2).2.flocks =
        (Flock.Close grantAll (some 0) worldShared1).2.flocks ++
          [{ fid := ⟨1, 1⟩, state := _LS_UNLOCKED, fd := nfd, refcount := 1, users := 0 }] := by
  have h := last_release_then_fresh grantAll worldShared1 0 0 { _Flock := some 0, closed := 0 }
    (objAt _LS_SHARED 1) (by decide) rfl rfl (by decide) rfl (by decide)
  obtain ⟨nfd, _, _, _, _, e⟩ := h.2.2.2 4 ⟨1, 1⟩ (some 1) rfl rfl (by decide)
  exact ⟨by decide, by decide, by decide, h.2.1, h.2.2.1, by decide, nfd, e⟩

/-! ## Package initialisation -/

/-- A `NewFlock` on the empty world that returns an error returns a nil handle. -/
theorem NewFlock_empty_error (k : Kernel) (fd : Int) (p : Ptr) (e : Errno)
    (h : (NewFlock k fd World.empty).1 = .ret (p, some e)) : p = none := by
  cases hst : k.Fstat World.empty.trace fd with
  | error e0 =>
    rw [NewFlock_fstat_err k fd World.empty e0 hst] at h
    simp only [Outcome.ret.injEq, Prod.mk.injEq] at h
    exact h.1.symm
  | ok st =>
    cases hd : k.Dup (World.empty.trace ++ [.Fstat fd (.ok st)]) fd with
    | error e0 =>
      rw [NewFlock_dup_err k fd World.empty st e0 hst rfl hd] at h
      simp only [Outcome.ret.injEq, Prod.mk.injEq] at h
      exact h.1.symm
    | ok nfd =>
      rw [NewFlock_fresh k fd World.empty st nfd hst rfl hd] at h
      simp at h

/-- C19: `init` starts from the empty registry, calls `NewFlock(2)` and then
`TryLock` on the result.  When `fstat`, `dup` and the exclusive `flock` request all
succeed, it returns and leaves one object for the duplicate of descriptor 2, in
state Exclusive with refcount 1, one open handle, and a trace without any unlock or
`close` call.  When `NewFlock(2)` returns an error, its handle is nil and `init`
panics on the `TryLock` call, which changes nothing. -/
theorem init_behaviour (k : Kernel) :
    (∀ st nfd, k.Fstat [] 2 = .ok st → k.Dup [.Fstat 2 (.ok st)] 2 = .ok nfd →
      k.Flock [.Fstat 2 (.ok st), .Dup 2 (.ok nfd)] nfd (LOCK_NB ||| LOCK_EX) = none →
      (init k).1 = .ret () ∧
      (init k).2.flocks = [{ fid := ⟨st.Dev, st.Ino⟩, state := _LS_EXCLUSIVE, fd := nfd,
                             refcount := 1, users := 0 }] ∧
      (init k).2.handles = [{ _Flock := some 0, closed := 0 }] ∧
      (init k).2.cache = [] ∧
      (init k).2.trace = [.Fstat 2 (.ok st), .Dup 2 (.ok nfd),
        .Flock nfd (LOCK_NB ||| LOCK_EX) none]) ∧
    (∀ p e, (NewFlock k 2 World.empty).1 = .ret (p, some e) →
      p = none ∧ (init k).1 = .panicked .nilDeref ∧
      (init k).2 = (NewFlock k 2 World.empty).2) := by
  refine ⟨?_, ?_⟩
  · intro st nfd hst hd hfl
    have hnew := NewFlock_fresh k 2 World.empty st nfd hst rfl hd
    unfold init
    rw [hnew]
    simp [Flock.TryLock, _Flock.TryLock, World.empty, hfl]
  · intro p e h
    have hp := NewFlock_empty_error k 2 p e h
    subst hp
    unfold init
    cases hr : NewFlock k 2 World.empty with
    | mk o w1 =>
      rw [hr] at h
      simp only at h
      subst h
      simp [Flock.TryLock]

/-! ## Order of the two mutexes -/

/-- C17 (code evaluated at the failing input): `NewFlock(3)` on the empty world
locks the registry mutex and then, inside it, the mutex of the object; `_Flock.Close`
on that object locks the mutex of the object and then, inside it, the registry
mutex.  The same holds for a `NewFlock` that finds the object in the registry. -/
theorem mutex_order_differs :
    (NewFlock grantAll 3 World.empty).2.mtxlog =
      [.Lock .cache, .Lock (.flock 0), .Unlock (.flock 0), .Unlock .cache] ∧
    (_Flock.Close grantAll (some 0) worldNew).2.mtxlog = worldNew.mtxlog ++
      [.Lock (.flock 0), .Lock .cache, .Unlock .cache, .Unlock (.flock 0)] ∧
    (NewFlock grantAll 4 { worldNew with cache := [(⟨1, 1⟩, 0)] }).2.mtxlog =
      worldNew.mtxlog ++
      [.Lock .cache, .Lock (.flock 0), .Unlock (.flock 0), .Unlock .cache] := by
  decide

/-! ## The shared-holder count along a run -/

theorem lockStep_failed (k : Kernel) (p : Ptr) (s : World × Holds) (op : LockOp)
    (h : s.2.failed = true) : (lockStep k p s op).2.failed = true := by
  obtain ⟨w, e, n, fl⟩ := s
  simp only at h
  subst h
  cases op with
  | TryLock =>
    unfold lockStep
    simp only
    split <;> rfl
  | TryRLock =>
    unfold lockStep
    simp only
    split <;> rfl
  | Unlock =>
    unfold lockStep
    simp only
    split
    · split <;> rfl
    · split <;> rfl
    · rfl

theorem lockStep_inv (k : Kernel) (i : Nat) (s : World × Holds) (op : LockOp)
    (hb : (s.2.shared : Int) < 9223372036854775807) (h : LockInv s.1 i s.2) :
    ((lockStep k (some i) s op).2.failed = true ∨
        LockInv (lockStep k (some i) s op).1 i (lockStep k (some i) s op).2) ∧
      (lockStep k (some i) s op).2.shared ≤ s.2.shared + 1 := by
  obtain ⟨w, e, n, fl⟩ := s
  obtain ⟨g, hg, hcase⟩ := h
  simp only at hg hcase hb
  have hi : i < w.flocks.length := (List.getElem?_eq_some.mp hg).1
  have hw1 : wrapInt 1 = 1 := by decide
  have hw0 : wrapInt 0 = 0 := by decide
  rcases hcase with ⟨hs, hu, he, hn⟩ | ⟨hs, hu, he, hn⟩ | ⟨hs, hu, hn, he⟩
  · -- Unlocked
    subst he hn
    cases op with
    | TryLock =>
      cases hk : k.Flock w.trace g.fd (LOCK_NB ||| LOCK_EX) with
      | none => simp [lockStep, _Flock.TryLock, LockInv, hg, hs, hu, hk, hi]
      | some e0 => simp [lockStep, _Flock.TryLock, LockInv, hg, hs, hu, hk]
    | TryRLock =>
      cases hk : k.Flock w.trace g.fd (LOCK_NB ||| LOCK_SH) with
      | none => simp [lockStep, _Flock.TryRLock, LockInv, hg, hs, hu, hk, hi, hw1]
      | some e0 => simp [lockStep, _Flock.TryRLock, LockInv, hg, hs, hu, hk]
    | Unlock => simp [lockStep, _Flock.Unlock, LockInv, hg, hs, hu]
  · -- Exclusive
    subst he hn
    cases op with
    | TryLock => simp [lockStep, _Flock.TryLock, LockInv, hg, hs, hu]
    | TryRLock => simp [lockStep, _Flock.TryRLock, LockInv, hg, hs, hu]
    | Unlock =>
      cases hk : k.Flock w.trace g.fd (LOCK_NB ||| LOCK_UN) with
      | none => simp [lockStep, _Flock.Unlock, unlockSyscall, LockInv, hg, hs, hu, hk, hi]
      | some e0 => simp [lockStep, _Flock.Unlock, unlockSyscall, LockInv, hg, hs, hu, hk]
  · -- Shared
    subst he
    have hwp : wrapInt ((n : Int) + 1) = n + 1 := wrapInt_of_range _ (by omega) (by omega)
    have hwm : wrapInt ((n : Int) - 1) = n - 1 := wrapInt_of_range _ (by omega) (by omega)
    cases op with
    | TryLock => simp [lockStep, _Flock.TryLock, LockInv, hg, hs, hu, hn]
    | TryRLock => simp [lockStep, _Flock.TryRLock, LockInv, hg, hs, hu, hi, hwp]
    | Unlock =>
      by_cases hpos : 0 < (n : Int) - 1
      · have h2 : 2 ≤ n := by omega
        have hc : ((n - 1 : Nat) : Int) = (n : Int) - 1 := by omega
        simp [lockStep, _Flock.Unlock, LockInv, hg, hs, hu, hi, hwm, hpos, hc]
        omega
      · have h1 : n = 1 := by omega
        subst h1
        cases hk : k.Flock w.trace g.fd (LOCK_NB ||| LOCK_UN) with
        | none =>
          simp [lockStep, _Flock.Unlock, unlockSyscall, LockInv, hg, hs, hu, hk, hi, hw0]
        | some e0 =>
          simp [lockStep, _Flock.Unlock, unlockSyscall, LockInv, hg, hs, hu, hk, hw0]

theorem lockRun_failed (k : Kernel) (p : Ptr) (ops : List LockOp) :
    ∀ s : World × Holds, s.2.failed = true → (lockRun k p ops s).2.failed = true := by
  induction ops with
  | nil => intro s h; exact h
  | cons op rest ih =>
    intro s h
    exact ih (lockStep k p s op) (lockStep_failed k p s op h)

theorem lockRun_inv (k : Kernel) (i : Nat) (ops : List LockOp) :
    ∀ s : World × Holds, (s.2.shared : Int) + ops.length < 9223372036854775808 →
      LockInv s.1 i s.2 →
      (lockRun k (some i) ops s).2.failed = true ∨
        LockInv (lockRun k (some i) ops s).1 i (lockRun k (some i) ops s).2 := by
  induction ops with
  | nil => intro s _ h; exact Or.inr h
  | cons op rest ih =>
    intro s hb h
    simp only [List.length_cons] at hb
    push_cast at hb
    obtain ⟨hstep, hle⟩ := lockStep_inv k i s op (by omega) h
    rcases hstep with hfail | hinv
    · exact Or.inl (lockRun_failed k (some i) rest _ hfail)
    · exact ih (lockStep k (some i) s op) (by omega) hinv

/-- C15 (amended): start from a freshly created object (Unlocked, count 0) and run
any sequence of `TryLock`, `TryRLock` and `Unlock` calls (fewer than 2^63 of them)
against any kernel, whatever the system calls answer and including the calls that
panic: an `Unlock` on an Unlocked object, and an `Unlock` of the exclusive hold whose
unlock request the kernel refuses.  As long as no `Unlock` made for a shared holder
has panicked on a refused unlock request, state Shared implies that the
shared-holder count is at least 1 and equals the number of `TryRLock` calls that
returned true and are not yet matched by an `Unlock`, and state Unlocked or
Exclusive implies that the count is 0. -/
theorem shared_count_invariant (k : Kernel) (w : World) (i : Nat) (f : _Flock)
    (ops : List LockOp) (hf : w.flocks[i]? = some f) (hs : f.state = _LS_UNLOCKED)
    (hu : f.users = 0) (hlen : (ops.length : Int) < 9223372036854775808)
    (hok : (lockRun k (some i) ops (w, ⟨false, 0, false⟩)).2.failed = false) :
    ∃ g, (lockRun k (some i) ops (w, ⟨false, 0, false⟩)).1.flocks[i]? = some g ∧
      (g.state = _LS_SHARED → 1 ≤ g.users ∧
        g.users = (lockRun k (some i) ops (w, ⟨false, 0, false⟩)).2.shared) ∧
      (g.state = _LS_UNLOCKED ∨ g.state = _LS_EXCLUSIVE → g.users = 0) := by
  have h0 : LockInv w i ⟨false, 0, false⟩ := ⟨f, hf, Or.inl ⟨hs, hu, rfl, rfl⟩⟩
  rcases lockRun_inv k i ops (w, ⟨false, 0, false⟩) (by simpa using hlen) h0 with hfail | hinv
  · rw [hok] at hfail
    cases hfail
  · obtain ⟨g, hg, hcase⟩ := hinv
    refine ⟨g, hg, ?_, ?_⟩
    · intro hsh
      rcases hcase with ⟨h1, _⟩ | ⟨h1, _⟩ | ⟨_, h2, h3, _⟩
      · rw [hsh] at h1
        exact absurd h1 ls_shared_ne_unlocked
      · rw [hsh] at h1
        exact absurd h1 ls_shared_ne_excl
      · exact ⟨by omega, h2⟩
    · intro hst
      rcases hcase with ⟨_, h2, _⟩ | ⟨_, h2, _⟩ | ⟨h1, _⟩
      · exact h2
      · exact h2
      · rcases hst with h | h
        · rw [h1] at h
          exact absurd h ls_shared_ne_unlocked
        · rw [h1] at h
          exact absurd h ls_shared_ne_excl

theorem shared_count_invariant_witness :
    (worldNew.flocks[0]? = some (objAt _LS_UNLOCKED 0) ∧
      (lockRun grantAll (some 0) [.TryRLock, .TryLock, .TryRLock, .TryRLock, .Unlock]
        (worldNew, ⟨false, 0, false⟩)).2 = ⟨false, 2, false⟩ ∧
      ∃ g, (lockRun grantAll (some 0) [.TryRLock, .TryLock, .TryRLock, .TryRLock, .Unlock]
          (worldNew, ⟨false, 0, false⟩)).1.flocks[0]? = some g ∧
        (g.state = _LS_SHARED → 1 ≤ g.users ∧
          g.users = ((lockRun grantAll (some 0)
            [.TryRLock, .TryLock, .TryRLock, .TryRLock, .Unlock]
            (worldNew, ⟨false, 0, false⟩)).2.shared : Int)) ∧
        (g.state = _LS_UNLOCKED ∨ g.state = _LS_EXCLUSIVE → g.users = 0)) ∧
    ((_Flock.Unlock denyUnlock (some 0) worldExcl).1 = .panicked (.err 5) ∧
      (lockRun denyUnlock (some 0) [.TryLock, .Unlock, .TryLock, .Unlock, .TryRLock]
        (worldNew, ⟨false, 0, false⟩)).2 =
        ⟨true, 0, false⟩ ∧
      ∃ g, (lockRun denyUnlock (some 0) [.TryLock, .Unlock, .TryLock, .Unlock, .TryRLock]
          (worldNew, ⟨false, 0, false⟩)).1.flocks[0]? = some g ∧
        (g.state = _LS_SHARED → 1 ≤ g.users ∧
          g.users = ((lockRun denyUnlock (some 0)
            [.TryLock, .Unlock, .TryLock, .Unlock, .TryRLock]
            (worldNew, ⟨false, 0, false⟩)).2.shared : Int)) ∧
        (g.state = _LS_UNLOCKED ∨ g.state = _LS_EXCLUSIVE → g.users = 0)) :=
  ⟨⟨by decide, by decide,
      shared_count_invariant grantAll worldNew 0 (objAt _LS_UNLOCKED 0)
        [.TryRLock, .TryLock, .TryRLock, .TryRLock, .Unlock] (by decide) rfl rfl (by decide)
        (by decide)⟩,
    ⟨by decide, by decide,
      shared_count_invariant denyUnlock worldNew 0 (objAt _LS_UNLOCKED 0)
        [.TryLock, .Unlock, .TryLock, .Unlock, .TryRLock] (by decide) rfl rfl (by decide)
        (by decide)⟩⟩

/-- C15 (counterexample): on a fresh object one `TryRLock` returns true and the
following `Unlock` panics because the kernel refuses the unlock call; the object is
then in state Shared with shared-holder count 0, and a second `Unlock`, granted
this time, leaves it Unlocked with count -1. -/
theorem shared_count_broken_by_failed_unlock :
    worldNew.flocks[0]? = some (objAt _LS_UNLOCKED 0) ∧
    (_Flock.Unlock denyUnlock (some 0) worldShared1).1 = .panicked (.err 5) ∧
    (lockRun denyUnlock (some 0) [.TryRLock, .Unlock] (worldNew, ⟨false, 0, false⟩)).1.flocks =
      [objAt _LS_SHARED 0] ∧
    (lockRun grantAll (some 0) [.Unlock]
      (lockRun denyUnlock (some 0) [.TryRLock, .Unlock] (worldNew, ⟨false, 0, false⟩))).1.flocks =
      [objAt _LS_UNLOCKED (-1)] := by
  decide

/-! ## What lock operations leave alone -/

theorem closeFailed_mono (a b : List Event) (hp : a <+: b) (h : closeFailed a = true) :
    closeFailed b = true := by
  obtain ⟨l, rfl⟩ := hp
  unfold closeFailed at h ⊢
  rw [List.any_append, h]
  rfl

theorem set_keeps (l : List _Flock) (i : Nat) (f g1 : _Flock) (hf : l[i]? = some f)
    (hr : g1.refcount = f.refcount) (hd : g1.fd = f.fd) :
    ∀ (n : Nat) (f2 : _Flock), l[n]? = some f2 →
      ∃ g : _Flock, (l.set i g1)[n]? = some g ∧ g.refcount = f2.refcount ∧ g.fd = f2.fd := by
  intro n f2 h
  have hi : i < l.length := (List.getElem?_eq_some.mp hf).1
  by_cases hin : i = n
  · subst hin
    rw [hf] at h
    cases h
    exact ⟨g1, by simp [hi], hr, hd⟩
  · exact ⟨f2, by simp [List.getElem?_set, hin, h], rfl, rfl⟩

theorem keeps_refl (l : List _Flock) :
    ∀ (n : Nat) (f : _Flock), l[n]? = some f →
      ∃ g : _Flock, l[n]? = some g ∧ g.refcount = f.refcount ∧ g.fd = f.fd :=
  fun _ f h => ⟨f, h, rfl, rfl⟩

theorem LockFrame_refl (w : World) : LockFrame w w :=
  ⟨rfl, rfl, List.prefix_refl _, rfl, fun _ f h => ⟨f, h, rfl, rfl⟩⟩

theorem LockFrame_of_same (w r : World) (h1 : r.handles = w.handles)
    (h2 : r.cache = w.cache) (h3 : w.trace <+: r.trace) (h4 : r.flocks = w.flocks) :
    LockFrame w r :=
  ⟨h1, h2, h3, by rw [h4], by rw [h4]; exact keeps_refl w.flocks⟩

theorem LockFrame_of_set (w r : World) (i : Nat) (f g1 : _Flock)
    (hf : w.flocks[i]? = some f) (hr : g1.refcount = f.refcount) (hd : g1.fd = f.fd)
    (h1 : r.handles = w.handles) (h2 : r.cache = w.cache) (h3 : w.trace <+: r.trace)
    (h4 : r.flocks = w.flocks.set i g1) : LockFrame w r :=
  ⟨h1, h2, h3, by rw [h4]; simp, by rw [h4]; exact set_keeps w.flocks i f g1 hf hr hd⟩

theorem TryLock_frame (k : Kernel) (p : Ptr) (w : World) :
    LockFrame w (_Flock.TryLock k p w).2 := by
  cases p with
  | none => exact LockFrame_refl w
  | some i =>
    cases hf : w.flocks[i]? with
    | none =>
      simp only [_Flock.TryLock, hf]
      exact LockFrame_refl w
    | some f =>
      by_cases hs : f.state = _LS_UNLOCKED
      · cases hk : k.Flock w.trace f.fd (LOCK_NB ||| LOCK_EX) with
        | some e =>
          apply LockFrame_of_same <;> simp [_Flock.TryLock, hf, hs, hk]
        | none =>
          apply LockFrame_of_set w _ i f { f with state := _LS_EXCLUSIVE } hf rfl rfl <;>
            simp [_Flock.TryLock, hf, hs, hk]
      · apply LockFrame_of_same <;> simp [_Flock.TryLock, hf, hs]

theorem TryRLock_frame (k : Kernel) (p : Ptr) (w : World) :
    LockFrame w (_Flock.TryRLock k p w).2 := by
  cases p with
  | none => exact LockFrame_refl w
  | some i =>
    cases hf : w.flocks[i]? with
    | none =>
      simp only [_Flock.TryRLock, hf]
      exact LockFrame_refl w
    | some f =>
      by_cases hx : f.state = _LS_EXCLUSIVE
      · apply LockFrame_of_same <;> simp [_Flock.TryRLock, hf, hx]
      · by_cases hs : f.state = _LS_SHARED
        · apply LockFrame_of_set w _ i f
            { f with users := wrapInt (f.users + 1), state := _LS_SHARED } hf rfl rfl <;>
            simp [_Flock.TryRLock, hf, hs]
        · cases hk : k.Flock w.trace f.fd (LOCK_NB ||| LOCK_SH) with
          | some e =>
            apply LockFrame_of_same <;> simp [_Flock.TryRLock, hf, hx, hs, hk]
          | none =>
            apply LockFrame_of_set w _ i f
              { f with users := wrapInt (f.users + 1), state := _LS_SHARED } hf rfl rfl <;>
              simp [_Flock.TryRLock, hf, hx, hs, hk]

theorem Unlock_frame (k : Kernel) (p : Ptr) (w : World) :
    LockFrame w (_Flock.Unlock k p w).2 := by
  cases p with
  | none => exact LockFrame_refl w
  | some i =>
    cases hf : w.flocks[i]? with
    | none =>
      simp only [_Flock.Unlock, hf]
      exact LockFrame_refl w
    | some f =>
      by_cases hu : f.state = _LS_UNLOCKED
      · apply LockFrame_of_same <;> simp [_Flock.Unlock, hf, hu]
      · by_cases hs : f.state = _LS_SHARED
        · by_cases hpos : 0 < wrapInt (f.users - 1)
          · apply LockFrame_of_set w _ i f { f with users := wrapInt (f.users - 1) } hf rfl rfl <;>
              simp [_Flock.Unlock, hf, hs, hpos]
          · cases hk : k.Flock w.trace f.fd (LOCK_NB ||| LOCK_UN) with
            | some e =>
              apply LockFrame_of_set w _ i f { f with users := wrapInt (f.users - 1) }
                hf rfl rfl <;>
                simp [_Flock.Unlock, unlockSyscall, hf, hs, hpos, hk]
            | none =>
              apply LockFrame_of_set w _ i f
                { f with users := wrapInt (f.users - 1), state := _LS_UNLOCKED } hf rfl rfl <;>
                simp [_Flock.Unlock, unlockSyscall, hf, hs, hpos, hk]
        · cases hk : k.Flock w.trace f.fd (LOCK_NB ||| LOCK_UN) with
          | some e =>
            apply LockFrame_of_same <;> simp [_Flock.Unlock, unlockSyscall, hf, hu, hs, hk]
          | none =>
            apply LockFrame_of_set w _ i f { f with state := _LS_UNLOCKED } hf rfl rfl <;>
              simp [_Flock.Unlock, unlockSyscall, hf, hu, hs, hk]

theorem handle_TryLock_frame (k : Kernel) (h : Ptr) (w : World) :
    LockFrame w (Flock.TryLock k h w).2 := by
  cases h with
  | none => exact LockFrame_refl w
  | some j =>
    cases hx : w.handles[j]? with
    | none =>
      simp only [Flock.TryLock, hx]
      exact LockFrame_refl w
    | some x =>
      simp only [Flock.TryLock, hx]
      exact TryLock_frame k x._Flock w

theorem handle_TryRLock_frame (k : Kernel) (h : Ptr) (w : World) :
    LockFrame w (Flock.TryRLock k h w).2 := by
  cases h with
  | none => exact LockFrame_refl w
  | some j =>
    cases hx : w.handles[j]? with
    | none =>
      simp only [Flock.TryRLock, hx]
      exact LockFrame_refl w
    | some x =>
      simp only [Flock.TryRLock, hx]
      exact TryRLock_frame k x._Flock w

theorem handle_Unlock_frame (k : Kernel) (h : Ptr) (w : World) :
    LockFrame w (Flock.Unlock k h w).2 := by
  cases h with
  | none => exact LockFrame_refl w
  | some j =>
    cases hx : w.handles[j]? with
    | none =>
      simp only [Flock.Unlock, hx]
      exact LockFrame_refl w
    | some x =>
      simp only [Flock.Unlock, hx]
      exact Unlock_frame k x._Flock w

/-! ## Worlds the package reaches -/

theorem Paired_empty : Paired World.empty := by
  refine ⟨rfl, rfl, ?_⟩
  intro j x hx
  simp [World.empty] at hx

theorem Paired_of_LockFrame (w r : World) (hw : Paired w) (hfr : LockFrame w r) :
    Paired r := by
  obtain ⟨hc, hl, hp⟩ := hw
  obtain ⟨f1, f2, f3, f4, f5⟩ := hfr
  refine ⟨by rw [f2, hc], by rw [f1, f4, hl], ?_⟩
  intro j x hx
  rw [f1] at hx
  obtain ⟨f, hf, hcase⟩ := hp j x hx
  obtain ⟨g, hg, hgr, hgd⟩ := f5 j f hf
  refine ⟨g, hg, ?_⟩
  rcases hcase with ⟨a, b, c⟩ | ⟨a, b, c, d⟩
  · exact Or.inl ⟨a, b, by rw [hgr, c]⟩
  · refine Or.inr ⟨a, b, by rw [hgr, c], ?_⟩
    rcases d with d | d
    · exact Or.inl (by rw [hgd, d])
    · exact Or.inr (closeFailed_mono _ _ f3 d)

/-- The same world with a longer trace and another mutex log. -/
theorem Paired_of_trace (w : World) (tr : List Event) (ml : List MtxEvent) (hw : Paired w)
    (hp : w.trace <+: tr) : Paired { w with trace := tr, mtxlog := ml } :=
  Paired_of_LockFrame w _ hw ⟨rfl, rfl, hp, rfl, keeps_refl w.flocks⟩

theorem Paired_NewFlock (k : Kernel) (fd : Int) (w : World) (hw : Paired w) :
    Paired (NewFlock k fd w).2 := by
  have hc : w.cache = [] := hw.1
  cases hst : k.Fstat w.trace fd with
  | error e =>
    rw [NewFlock_fstat_err k fd w e hst]
    exact Paired_of_trace w _ w.mtxlog hw (by simp)
  | ok st =>
    have hl : w.cache.lookup ⟨st.Dev, st.Ino⟩ = none := by rw [hc]; rfl
    cases hd : k.Dup (w.trace ++ [.Fstat fd (.ok st)]) fd with
    | error e =>
      rw [NewFlock_dup_err k fd w st e hst hl hd]
      exact Paired_of_trace w _ _ hw (by simp)
    | ok nfd =>
      rw [NewFlock_fresh k fd w st nfd hst hl hd]
      obtain ⟨_, hlen, hp⟩ := hw
      refine ⟨hc, by simp [hlen], ?_⟩
      intro j x hx
      simp only at hx ⊢
      by_cases hj : j < w.handles.length
      · rw [List.getElem?_append_left hj] at hx
        obtain ⟨f, hf, hcase⟩ := hp j x hx
        refine ⟨f, by rw [List.getElem?_append_left (by omega)]; exact hf, ?_⟩
        rcases hcase with h1 | ⟨a, b, c, d⟩
        · exact Or.inl h1
        · refine Or.inr ⟨a, b, c, ?_⟩
          rcases d with d | d
          · exact Or.inl d
          · exact Or.inr (closeFailed_mono _ _ (by simp) d)
      · have hj2 : j = w.handles.length := by
          have := (List.getElem?_eq_some.mp hx).1
          simp at this
          omega
        subst hj2
        simp at hx
        subst hx
        refine ⟨{ fid := ⟨st.Dev, st.Ino⟩, state := _LS_UNLOCKED, fd := nfd,
                  refcount := 1, users := 0 }, by rw [hlen]; simp,
          Or.inl ⟨rfl, by rw [hlen], rfl⟩⟩

theorem Paired_set (w r : World) (j : Nat) (y : Flock) (g1 : _Flock) (hw : Paired w)
    (hj : j < w.handles.length) (h1 : r.cache = [])
    (h2 : r.handles = w.handles.set j y) (h3 : r.flocks = w.flocks.set j g1)
    (h4 : w.trace <+: r.trace)
    (hnew : (y.closed = 0 ∧ y._Flock = some j ∧ g1.refcount = 1) ∨
      (y.closed = 1 ∧ (y._Flock = none ∨ y._Flock = some j) ∧ g1.refcount = 0 ∧
        (g1.fd = -1 ∨ closeFailed r.trace = true))) : Paired r := by
  obtain ⟨_, hlen, hp⟩ := hw
  refine ⟨h1, by rw [h2, h3]; simpa using hlen, ?_⟩
  intro n x hx
  rw [h2] at hx
  rw [h3]
  by_cases hn : j = n
  · subst hn
    simp [hj] at hx
    subst hx
    exact ⟨g1, by simp [← hlen, hj], hnew⟩
  · rw [List.getElem?_set_ne hn] at hx ⊢
    obtain ⟨f, hf, hcase⟩ := hp n x hx
    refine ⟨f, hf, ?_⟩
    rcases hcase with a | ⟨a, b, c, d⟩
    · exact Or.inl a
    · refine Or.inr ⟨a, b, c, ?_⟩
      rcases d with d | d
      · exact Or.inl d
      · exact Or.inr (closeFailed_mono _ _ h4 d)

theorem Paired_Close (k : Kernel) (h : Ptr) (w : World) (hw : Paired w) :
    Paired (Flock.Close k h w).2 := by
  cases h with
  | none => exact hw
  | some j =>
    cases hx : w.handles[j]? with
    | none =>
      simp only [Flock.Close, hx]
      exact hw
    | some x =>
      by_cases hc : x.closed = 0
      · have hj : j < w.handles.length := (List.getElem?_eq_some.mp hx).1
        obtain ⟨f, hf, hcase⟩ := hw.2.2 j x hx
        have hcache : w.cache = [] := hw.1
        have hw0 : wrapInt 0 = 0 := by decide
        rcases hcase with ⟨_, hp, hr⟩ | ⟨a, _⟩
        · cases hk : k.Close w.trace f.fd with
          | none =>
            apply Paired_set w _ j { _Flock := none, closed := 1 }
              { f with refcount := 0, fd := -1 } hw hj
            · simp [Flock.Close, _Flock.Close, hx, hc, hp, hf, hr, hw0, hk, hcache]
            · simp [Flock.Close, _Flock.Close, hx, hc, hp, hf, hr, hw0, hk]
            · simp [Flock.Close, _Flock.Close, hx, hc, hp, hf, hr, hw0, hk]
            · simp [Flock.Close, _Flock.Close, hx, hc, hp, hf, hr, hw0, hk]
            · exact Or.inr ⟨rfl, Or.inl rfl, rfl, Or.inl rfl⟩
          | some e =>
            apply Paired_set w _ j { x with closed := 1 } { f with refcount := 0 } hw hj
            · simp [Flock.Close, _Flock.Close, hx, hc, hp, hf, hr, hw0, hk, hcache]
            · simp [Flock.Close, _Flock.Close, hx, hc, hp, hf, hr, hw0, hk]
            · simp [Flock.Close, _Flock.Close, hx, hc, hp, hf, hr, hw0, hk]
            · simp [Flock.Close, _Flock.Close, hx, hc, hp, hf, hr, hw0, hk]
            · refine Or.inr ⟨rfl, Or.inr hp, rfl, Or.inr ?_⟩
              simp [Flock.Close, _Flock.Close, hx, hc, hp, hf, hr, hw0, hk, closeFailed]
        · rw [hc] at a
          cases a
      · rw [Flock_Close_closed k j w x hx hc]
        exact hw

theorem Paired_run (k : Kernel) (c : Call) (w : World) (hw : Paired w) :
    Paired (c.run k w) := by
  cases c with
  | NewFlock fd => exact Paired_NewFlock k fd w hw
  | TryLock h => exact Paired_of_LockFrame w _ hw (handle_TryLock_frame k h w)
  | TryRLock h => exact Paired_of_LockFrame w _ hw (handle_TryRLock_frame k h w)
  | Unlock h => exact Paired_of_LockFrame w _ hw (handle_Unlock_frame k h w)
  | Close h => exact Paired_Close k h w hw

theorem Paired_runCalls (k : Kernel) (cs : List Call) :
    ∀ w : World, Paired w → Paired (runCalls k cs w) := by
  induction cs with
  | nil => intro w hw; exact hw
  | cons c rest ih =>
    intro w hw
    exact ih (c.run k w) (Paired_run k c w hw)

theorem Paired_init (k : Kernel) : Paired (init k).2 := by
  have h1 : Paired (NewFlock k 2 World.empty).2 := Paired_NewFlock k 2 _ Paired_empty
  unfold init
  cases hr : NewFlock k 2 World.empty with
  | mk o w1 =>
    rw [hr] at h1
    cases o with
    | panicked v => exact h1
    | ret a =>
      obtain ⟨f, e⟩ := a
      have h2 : Paired (Flock.TryLock k f w1).2 :=
        Paired_of_LockFrame w1 _ h1 (handle_TryLock_frame k f w1)
      simp only
      cases hr2 : Flock.TryLock k f w1 with
      | mk o2 w2 =>
        rw [hr2] at h2
        cases o2 with
        | panicked v => exact h2
        | ret b => exact h2

/-! ## A released handle -/

theorem NewFlock_handles_prefix (k : Kernel) (fd : Int) (w : World) :
    w.handles <+: (NewFlock k fd w).2.handles := by
  cases hst : k.Fstat w.trace fd with
  | error e => simp [NewFlock, getFid, hst]
  | ok st =>
    cases hl : w.cache.lookup ⟨st.Dev, st.Ino⟩ with
    | some i =>
      cases hf : w.flocks[i]? with
      | none => simp [NewFlock, getFid, hst, hl, wrapFlock, _Flock.incref, hf]
      | some f => simp [NewFlock, getFid, hst, hl, wrapFlock, _Flock.incref, hf]
    | none =>
      cases hd : k.Dup (w.trace ++ [.Fstat fd (.ok st)]) fd with
      | error e => simp [NewFlock, getFid, hst, hl, hd]
      | ok nfd => simp [NewFlock, getFid, hst, hl, hd, wrapFlock, _Flock.incref]

theorem Flock_Close_other (k : Kernel) (w : World) (j j2 : Nat) (hne : j2 ≠ j) :
    (Flock.Close k (some j2) w).2.handles[j]? = w.handles[j]? := by
  cases hx : w.handles[j2]? with
  | none => simp [Flock.Close, hx]
  | some x =>
    by_cases hc : x.closed = 0
    · have hh := Close_handles k x._Flock (w.setHandle j2 { x with closed := 1 })
      unfold Flock.Close
      simp only [hx, hc, if_true]
      cases hr : _Flock.Close k x._Flock (w.setHandle j2 { x with closed := 1 }) with
      | mk o w2 =>
        rw [hr] at hh
        simp only [World.setHandle] at hh
        cases o with
        | ret a => simp [hh, List.getElem?_set_ne hne]
        | panicked v => simp [hh, List.getElem?_set_ne hne]
    · rw [Flock_Close_closed k j2 w x hx hc]

theorem Flock_Close_ret_nil (k : Kernel) (w : World) (j : Nat) (x : Flock)
    (hx : w.handles[j]? = some x) (hc : x.closed = 0)
    (hret : (Flock.Close k (some j) w).1 = .ret ()) :
    ∃ y : Flock, (Flock.Close k (some j) w).2.handles[j]? = some y ∧ y._Flock = none := by
  have hj : j < w.handles.length := (List.getElem?_eq_some.mp hx).1
  have hh := Close_handles k x._Flock (w.setHandle j { x with closed := 1 })
  unfold Flock.Close at hret ⊢
  simp only [hx, hc, if_true] at hret ⊢
  cases hr : _Flock.Close k x._Flock (w.setHandle j { x with closed := 1 }) with
  | mk o w2 =>
    rw [hr] at hh hret
    simp only [World.setHandle] at hh
    cases o with
    | ret a =>
      have hj2 : j < w2.handles.length := by rw [hh]; simpa using hj
      exact ⟨{ _Flock := none, closed := 1 }, by simp [hj2], rfl⟩
    | panicked v => simp at hret

/-- A handle whose embedded pointer is nil keeps it through every call. -/
theorem nil_handle_stays (k : Kernel) (c : Call) (w : World) (j : Nat)
    (h : ∃ y : Flock, w.handles[j]? = some y ∧ y._Flock = none) :
    ∃ y : Flock, (c.run k w).handles[j]? = some y ∧ y._Flock = none := by
  obtain ⟨y, hy, hn⟩ := h
  cases c with
  | NewFlock fd =>
    obtain ⟨l, hl⟩ := NewFlock_handles_prefix k fd w
    have hj : j < w.handles.length := (List.getElem?_eq_some.mp hy).1
    refine ⟨y, ?_, hn⟩
    simp only [Call.run]
    rw [← hl, List.getElem?_append_left hj]
    exact hy
  | TryLock h => exact ⟨y, by simp only [Call.run]; rw [(handle_TryLock_frame k h w).1]; exact hy, hn⟩
  | TryRLock h => exact ⟨y, by simp only [Call.run]; rw [(handle_TryRLock_frame k h w).1]; exact hy, hn⟩
  | Unlock h => exact ⟨y, by simp only [Call.run]; rw [(handle_Unlock_frame k h w).1]; exact hy, hn⟩
  | Close h =>
    simp only [Call.run]
    cases h with
    | none => exact ⟨y, hy, hn⟩
    | some j2 =>
      by_cases hjj : j2 = j
      · subst hjj
        have hj : j2 < w.handles.length := (List.getElem?_eq_some.mp hy).1
        by_cases hc : y.closed = 0
        · exact ⟨{ y with closed := 1 }, by simp [Flock.Close, _Flock.Close, hy, hc, hn, hj], hn⟩
        · rw [Flock_Close_closed k j2 w y hy hc]
          exact ⟨y, hy, hn⟩
      · exact ⟨y, by rw [Flock_Close_other k w j j2 hjj]; exact hy, hn⟩

theorem nil_handle_stays_run (k : Kernel) (cs : List Call) (j : Nat) :
    ∀ w : World, (∃ y : Flock, w.handles[j]? = some y ∧ y._Flock = none) →
      ∃ y : Flock, (runCalls k cs w).handles[j]? = some y ∧ y._Flock = none := by
  induction cs with
  | nil => intro w h; exact h
  | cons c rest ih =>
    intro w h
    exact ih (c.run k w) (nil_handle_stays k c w j h)

/-- C13 (amended): once `Close` on a handle that was not yet released has returned, then after
any further sequence of calls `TryLock`, `TryRLock` and `Unlock` through that handle
panic on the nil embedded pointer: they return no result and leave the whole world
(system call trace, lock objects with state, users and refcount, handles, registry)
exactly as it was. -/
theorem released_handle_unusable (k : Kernel) (w : World) (j : Nat) (x : Flock)
    (cs : List Call) (hx : w.handles[j]? = some x) (hc : x.closed = 0)
    (hret : (Flock.Close k (some j) w).1 = .ret ()) :
    Flock.TryLock k (some j) (runCalls k cs (Flock.Close k (some j) w).2) =
        (.panicked .nilDeref, runCalls k cs (Flock.Close k (some j) w).2) ∧
      Flock.TryRLock k (some j) (runCalls k cs (Flock.Close k (some j) w).2) =
        (.panicked .nilDeref, runCalls k cs (Flock.Close k (some j) w).2) ∧
      Flock.Unlock k (some j) (runCalls k cs (Flock.Close k (some j) w).2) =
        (.panicked .nilDeref, runCalls k cs (Flock.Close k (some j) w).2) := by
  obtain ⟨y, hy, hn⟩ := nil_handle_stays_run k cs j _ (Flock_Close_ret_nil k w j x hx hc hret)
  refine ⟨?_, ?_, ?_⟩
  · simp [Flock.TryLock, _Flock.TryLock, hy, hn]
  · simp [Flock.TryRLock, _Flock.TryRLock, hy, hn]
  · simp [Flock.Unlock, _Flock.Unlock, hy, hn]

theorem released_handle_unusable_witness :
    worldTwo.handles[0]? = some { _Flock := some 0, closed := 0 } ∧
      (Flock.Close grantAll (some 0) worldTwo).1 = .ret () ∧
      (Flock.TryLock grantAll (some 0)
        (runCalls grantAll [.TryRLock (some 1), .NewFlock 5, .Close (some 0)]
          (Flock.Close grantAll (some 0) worldTwo).2)).1 = .panicked .nilDeref :=
  ⟨by decide, by decide,
    congrArg Prod.fst (released_handle_unusable grantAll worldTwo 0
      { _Flock := some 0, closed := 0 } [.TryRLock (some 1), .NewFlock 5, .Close (some 0)]
      (by decide) rfl (by decide)).1⟩

/-- C13 (counterexample): the `Close` of the only handle of `worldNew` panics because
the kernel refuses the `close` call; the handle then has its released flag set and
still wraps its object, a second `Close` returns without doing anything, and
`TryLock` and `TryRLock` through the handle run and return true. -/
theorem handle_usable_after_failed_close :
    worldNew.handles = [{ _Flock := some 0, closed := 0 }] ∧
    (Flock.Close denyClose (some 0) worldNew).1 = .panicked (.err 5) ∧
    (Flock.Close denyClose (some 0) worldNew).2.handles =
      [{ _Flock := some 0, closed := 1 }] ∧
    Flock.Close denyClose (some 0) (Flock.Close denyClose (some 0) worldNew).2 =
      (.ret (), (Flock.Close denyClose (some 0) worldNew).2) ∧
    (Flock.TryLock denyClose (some 0) (Flock.Close denyClose (some 0) worldNew).2).1 =
      .ret true ∧
    (Flock.TryRLock denyClose (some 0) (Flock.Close denyClose (some 0) worldNew).2).1 =
      .ret true := by
  decide

/-! ## The registry stays empty, the refcount counts handles -/

/-- In a paired world every successful `NewFlock` takes the miss path. -/
theorem Paired_NewFlock_success (k : Kernel) (fd : Int) (w : World) (h : Ptr)
    (hw : Paired w) (hok : (NewFlock k fd w).1 = .ret (h, none)) :
    ∃ st nfd, k.Fstat w.trace fd = .ok st ∧
      k.Dup (w.trace ++ [.Fstat fd (.ok st)]) fd = .ok nfd ∧
      h = some w.handles.length ∧
      (NewFlock k fd w).2.trace = w.trace ++ [.Fstat fd (.ok st), .Dup fd (.ok nfd)] ∧
      (NewFlock k fd w).2.handles =
        w.handles ++ [{ _Flock := some w.flocks.length, closed := 0 }] ∧
      (NewFlock k fd w).2.flocks =
        w.flocks ++ [{ fid := ⟨st.Dev, st.Ino⟩, state := _LS_UNLOCKED, fd := nfd,
                       refcount := 1, users := 0 }] ∧
      (NewFlock k fd w).2.cache = [] ∧
      ∀ x ∈ w.handles, x._Flock ≠ some w.flocks.length := by
  have hc : w.cache = [] := hw.1
  cases hst : k.Fstat w.trace fd with
  | error e =>
    rw [NewFlock_fstat_err k fd w e hst] at hok
    simp at hok
  | ok st =>
    have hl : w.cache.lookup ⟨st.Dev, st.Ino⟩ = none := by rw [hc]; rfl
    obtain ⟨nfd, a, b, c, d, e, g⟩ := NewFlock_success_miss k fd w st h hst hl hok
    refine ⟨st, nfd, rfl, a, b, c, d, e, by rw [g, hc], ?_⟩
    intro x hx hp
    obtain ⟨n, hn⟩ := List.mem_iff_getElem?.mp hx
    have hlt : n < w.handles.length := (List.getElem?_eq_some.mp hn).1
    obtain ⟨f, _, hcase⟩ := hw.2.2 n x hn
    have hlen := hw.2.1
    rcases hcase with ⟨_, q, _⟩ | ⟨_, q, _⟩
    · rw [hp] at q
      simp only [Option.some.injEq] at q
      omega
    · rcases q with q | q
      · rw [hp] at q
        cases q
      · rw [hp] at q
        simp only [Option.some.injEq] at q
        omega

/-- C18: in every world reached from package initialisation by any sequence of
`NewFlock`, `TryLock`, `TryRLock`, `Unlock` and `Close` calls the registry is empty;
hence every `NewFlock` that returns a handle there has called `fstat` and `dup` with
success and its handle is a new one wrapping a newly allocated object, Unlocked with
refcount 1 and count 0, that no earlier handle wraps; the registry is empty after
it as well. -/
theorem registry_always_empty (k : Kernel) (cs : List Call) (w : World)
    (hw : w = runCalls k cs (init k).2) :
    w.cache = [] ∧
    ∀ (fd : Int) (h : Ptr), (NewFlock k fd w).1 = .ret (h, none) →
      ∃ st nfd, k.Fstat w.trace fd = .ok st ∧
        k.Dup (w.trace ++ [.Fstat fd (.ok st)]) fd = .ok nfd ∧
        h = some w.handles.length ∧
        (NewFlock k fd w).2.trace = w.trace ++ [.Fstat fd (.ok st), .Dup fd (.ok nfd)] ∧
        (NewFlock k fd w).2.handles =
          w.handles ++ [{ _Flock := some w.flocks.length, closed := 0 }] ∧
        (NewFlock k fd w).2.flocks =
          w.flocks ++ [{ fid := ⟨st.Dev, st.Ino⟩, state := _LS_UNLOCKED, fd := nfd,
                         refcount := 1, users := 0 }] ∧
        (NewFlock k fd w).2.cache = [] ∧
        ∀ x ∈ w.handles, x._Flock ≠ some w.flocks.length := by
  have hp : Paired w := by
    rw [hw]
    exact Paired_runCalls k cs _ (Paired_init k)
  exact ⟨hp.1, fun fd h hok => Paired_NewFlock_success k fd w h hp hok⟩

theorem registry_always_empty_witness :
    (runCalls grantAll [.NewFlock 3, .TryRLock (some 1), .Close (some 1), .NewFlock 3]
        (init grantAll).2).cache = [] ∧
      (runCalls grantAll [.NewFlock 3, .TryRLock (some 1), .Close (some 1), .NewFlock 3]
        (init grantAll).2).handles =
        [{ _Flock := some 0, closed := 0 }, { _Flock := none, closed := 1 },
          { _Flock := some 2, closed := 0 }] ∧
      (NewFlock grantAll 3 (runCalls grantAll
        [.NewFlock 3, .TryRLock (some 1), .Close (some 1), .NewFlock 3]
        (init grantAll).2)).1 = .ret (some 3, none) :=
  ⟨(registry_always_empty grantAll
      [.NewFlock 3, .TryRLock (some 1), .Close (some 1), .NewFlock 3] _ rfl).1,
    by decide, by decide⟩

theorem countP_at {α : Type} (p : α → Bool) :
    ∀ (l : List α) (i : Nat) (x : α), l[i]? = some x →
      (∀ (j : Nat) (y : α), l[j]? = some y → p y = true → j = i) →
      l.countP p = if p x = true then 1 else 0 := by
  intro l
  induction l with
  | nil => intro i x hx; simp at hx
  | cons a t ih =>
    intro i x hx huniq
    cases i with
    | zero =>
      simp only [List.getElem?_cons_zero, Option.some.injEq] at hx
      subst hx
      have ht : t.countP p = 0 := by
        rw [List.countP_eq_zero]
        intro y hy hpy
        obtain ⟨n, hn⟩ := List.mem_iff_getElem?.mp hy
        have := huniq (n + 1) y (by simpa using hn) hpy
        omega
      rw [List.countP_cons, ht]
      simp
    | succ i2 =>
      have hpa : p a = false := by
        cases hpa : p a with
        | false => rfl
        | true =>
          have := huniq 0 a (by simp) hpa
          omega
      have hrec := ih i2 x (by simpa using hx) (by
        intro j y hy hpy
        have := huniq (j + 1) y (by simpa using hy) hpy
        omega)
      rw [List.countP_cons, hrec, hpa]
      simp

/-- In a paired world the refcount of object `i` is the number of open handles on it,
and it is at least 1 while the descriptor field is set, unless a `close` failed. -/
theorem Paired_refcount (w : World) (hw : Paired w) (i : Nat) (f : _Flock)
    (hf : w.flocks[i]? = some f) :
    f.refcount = (liveHandles w i : Int) ∧
      (closeFailed w.trace = false → f.fd ≠ -1 → 1 ≤ f.refcount) := by
  obtain ⟨_, hlen, hp⟩ := hw
  have hi : i < w.handles.length := by
    rw [hlen]
    exact (List.getElem?_eq_some.mp hf).1
  obtain ⟨x, hx⟩ : ∃ x, w.handles[i]? = some x := ⟨w.handles[i], by simp [hi]⟩
  obtain ⟨f2, hf2, hcase⟩ := hp i x hx
  rw [hf] at hf2
  cases hf2
  have huniq : ∀ (j : Nat) (y : Flock), w.handles[j]? = some y →
      decide (y._Flock = some i ∧ y.closed = 0) = true → j = i := by
    intro j y hy hpy
    simp only [decide_eq_true_eq] at hpy
    obtain ⟨g, _, hc2⟩ := hp j y hy
    rcases hc2 with ⟨_, q, _⟩ | ⟨q, _⟩
    · rw [hpy.1] at q
      simp only [Option.some.injEq] at q
      exact q.symm
    · rw [hpy.2] at q
      cases q
  have hcount := countP_at (fun y : Flock => decide (y._Flock = some i ∧ y.closed = 0))
    w.handles i x hx huniq
  unfold liveHandles
  rw [hcount]
  rcases hcase with ⟨a, b, c⟩ | ⟨a, b, c, d⟩
  · simp [a, b, c]
  · refine ⟨by simp [a, c], ?_⟩
    intro hcf hfd
    rcases d with d | d
    · exact absurd d hfd
    · rw [hcf] at d
      cases d

/-- C16 (amended): in every world reached from the empty registry, or from package
initialisation, by any sequence of `NewFlock`, `TryLock`, `TryRLock`, `Unlock` and
`Close` calls, the refcount of each object equals the number of handles wrapping it
whose released flag is still 0; as long as no `close` system call has failed, the
refcount is at least 1 whenever the descriptor field is not -1; and no lock operation
changes the refcount of any object. -/
theorem refcount_counts_handles (k : Kernel) (cs : List Call) (w : World)
    (hw : w = runCalls k cs World.empty ∨ w = runCalls k cs (init k).2) :
    (∀ (i : Nat) (f : _Flock), w.flocks[i]? = some f →
      f.refcount = (liveHandles w i : Int) ∧
      (closeFailed w.trace = false → f.fd ≠ -1 → 1 ≤ f.refcount)) ∧
    (∀ (h : Ptr) (n : Nat) (f : _Flock), w.flocks[n]? = some f →
      (∃ g : _Flock, (Flock.TryLock k h w).2.flocks[n]? = some g ∧
        g.refcount = f.refcount) ∧
      (∃ g : _Flock, (Flock.TryRLock k h w).2.flocks[n]? = some g ∧
        g.refcount = f.refcount) ∧
      (∃ g : _Flock, (Flock.Unlock k h w).2.flocks[n]? = some g ∧
        g.refcount = f.refcount)) := by
  have hp : Paired w := by
    rcases hw with hw | hw
    · rw [hw]
      exact Paired_runCalls k cs _ Paired_empty
    · rw [hw]
      exact Paired_runCalls k cs _ (Paired_init k)
  refine ⟨fun i f hf => Paired_refcount w hp i f hf, ?_⟩
  intro h n f hf
  obtain ⟨g1, a1, b1, _⟩ := (handle_TryLock_frame k h w).2.2.2.2 n f hf
  obtain ⟨g2, a2, b2, _⟩ := (handle_TryRLock_frame k h w).2.2.2.2 n f hf
  obtain ⟨g3, a3, b3, _⟩ := (handle_Unlock_frame k h w).2.2.2.2 n f hf
  exact ⟨⟨g1, a1, b1⟩, ⟨g2, a2, b2⟩, ⟨g3, a3, b3⟩⟩

theorem refcount_counts_handles_witness :
    (runCalls grantAll [.NewFlock 3, .NewFlock 4, .TryLock (some 1), .Close (some 0)]
        World.empty).flocks.map (fun f => (f.fd, f.refcount)) = [(-1, 0), (13, 1)] ∧
      liveHandles (runCalls grantAll
        [.NewFlock 3, .NewFlock 4, .TryLock (some 1), .Close (some 0)] World.empty) 1 = 1 ∧
      ∀ (i : Nat) (f : _Flock),
        (runCalls grantAll [.NewFlock 3, .NewFlock 4, .TryLock (some 1), .Close (some 0)]
          World.empty).flocks[i]? = some f →
        f.refcount = (liveHandles (runCalls grantAll
          [.NewFlock 3, .NewFlock 4, .TryLock (some 1), .Close (some 0)] World.empty) i : Int) ∧
        (closeFailed (runCalls grantAll
          [.NewFlock 3, .NewFlock 4, .TryLock (some 1), .Close (some 0)] World.empty).trace =
            false → f.fd ≠ -1 → 1 ≤ f.refcount) :=
  ⟨by decide, by decide,
    (refcount_counts_handles grantAll
      [.NewFlock 3, .NewFlock 4, .TryLock (some 1), .Close (some 0)] _ (Or.inl rfl)).1⟩

/-- C16 (counterexample): after `NewFlock(3)` and a `Close` of its handle during which
the kernel refuses the `close` call, the object has refcount 0 while its descriptor
field is still 11, the descriptor not having been closed. -/
theorem refcount_zero_with_open_descriptor :
    (runCalls denyClose [.NewFlock 3, .Close (some 0)] World.empty).flocks =
      [{ objAt _LS_UNLOCKED 0 with refcount := 0 }] ∧
    (runCalls denyClose [.NewFlock 3, .Close (some 0)] World.empty).trace =
      [.Fstat 3 (.ok ⟨1, 1⟩), .Dup 3 (.ok 11), .Close 11 (some 5)] ∧
    (runCalls denyClose [.NewFlock 3, .Close (some 0)] World.empty).handles =
      [{ _Flock := some 0, closed := 1 }] := by
  decide

end Easyflock
